import Mathlib

/-!
Verification of the kraken_analyzer ingest/registry/repair pipeline.

This file is a shallow embedding, in Lean 4, of the core of the repository:

* `scripts/experiment_manager.py` — the experiment-period registry
  (`ExperimentPeriodManager`): timestamp resolution, closing periods.
* `scripts/ingest.py` — the snapshot ingest pipeline: filename timestamp
  extraction, labeling, tiered dedup-key derivation, union, dedup.
* `scripts/fix_experiment_labels.py` — the label repair tool (cutoff and
  registry strategies, dry-run and backup discipline).

Modelling conventions:

* Cell values (CSV-origin, dynamically typed) are a tagged union
  `Scalar` = string | integer | missing, following the spec's data-model
  note; fractional floats play no role in any verified claim.
* A pandas `DataFrame` is a `DF`: a column-name list plus rows of scalars.
* Timestamps are encoded as natural numbers via `encTs` (lexicographic
  packing of year..microsecond), so datetime comparison is `Nat` order.
* `hashlib.md5(...).hexdigest()` is an external library call; it is
  modelled as an explicit function argument `digest : String → String`
  (the spec's contract: a fixed, deterministic, collision-resistant
  digest).  Likewise `pandas.to_datetime(..., errors="coerce")` is a
  parameter `toDt : String → Option Nat` (`none` = `NaT`).
* Python exceptions are `Option`/error results; functions that mutate
  state are state-passing step functions.
* String primitives (split, replace, substring test) are re-implemented
  by structural recursion over `List Char` so that every definition
  evaluates inside the kernel.
-/

/-- Pattern `p` is a leading segment of `l` (model of `str.startswith`). -/
def startsWithL : List Char → List Char → Bool
  | [], _ => true
  | _ :: _, [] => false
  | a :: as, b :: bs => a = b && startsWithL as bs

/-- Pattern `p` occurs contiguously in `l` (model of Python `p in s`). -/
def isSubL (p : List Char) : List Char → Bool
  | [] => startsWithL p []
  | c :: t => startsWithL p (c :: t) || isSubL p t

/-- Model of Python `p in s` (substring test). -/
def containsSub (s pat : String) : Bool :=
  isSubL pat.data s.data

/-- Model of `str.startswith` on strings. -/
def pyStartsWith (s pat : String) : Bool :=
  startsWithL pat.data s.data

/-- Split a char list at every occurrence of the separator character
(model of `str.split(sep)` / `String.splitOn` for one-char separators). -/
def splitOnCharL (sep : Char) (l : List Char) : List (List Char) :=
  l.foldr
    (fun c acc =>
      if c = sep then [] :: acc
      else
        match acc with
        | h :: t => (c :: h) :: t
        | [] => [[c]])
    [[]]

/-- Split a string at every occurrence of a one-character separator. -/
def splitOnChar (sep : Char) (s : String) : List String :=
  (splitOnCharL sep s.data).map (fun l => ⟨l⟩)

/-- Join a list of strings with a one-character separator (model of Python
`sep.join(parts)`). -/
def joinWith (sep : Char) : List String → String
  | [] => ""
  | [x] => x
  | x :: xs => x ++ ⟨[sep]⟩ ++ joinWith sep xs

/-- Number of occurrences of a character in a string. -/
def countChar (s : String) (c : Char) : Nat :=
  s.data.count c

/-- Replace the first `n` occurrences of character `a` by `b` in a char list
(model of Python `str.replace(a, b, n)` for single characters). -/
def replaceFirstN (a b : Char) : Nat → List Char → List Char
  | _, [] => []
  | 0, l => l
  | n + 1, c :: l => if c = a then b :: replaceFirstN a b n l else c :: replaceFirstN a b (n + 1) l

/-- Replace every occurrence of character `a` by `b`
(model of Python `str.replace(a, b)` for single characters). -/
def replaceAllChar (a b : Char) (s : String) : String :=
  ⟨s.data.map (fun c => if c = a then b else c)⟩

/-- Model of Python `str.replace(":", "-", 2)`. -/
def replaceColon2 (s : String) : String :=
  ⟨replaceFirstN ':' '-' 2 s.data⟩

/-- Model of Python `s.rstrip('Z')`: drop every trailing `Z`. -/
def rstripZ (s : String) : String :=
  ⟨(s.data.reverse.dropWhile (fun c => c = 'Z')).reverse⟩

/-- The string ends with the given pattern (model of `str.endswith`). -/
def endsWithStr (s pat : String) : Bool :=
  decide (pat.data.length ≤ s.data.length) &&
    decide (s.data.drop (s.data.length - pat.data.length) = pat.data)

/-- Drop the last `n` characters of a string. -/
def dropRightStr (s : String) (n : Nat) : String :=
  ⟨s.data.take (s.data.length - n)⟩

/-- Lexicographic order on char lists by code point, as Python compares
strings. -/
def lexLe : List Char → List Char → Bool
  | [], _ => true
  | _ :: _, [] => false
  | a :: as, b :: bs => if a = b then lexLe as bs else decide (a.toNat < b.toNat)

/-- Lexicographic `≤` on strings (the order used by Python `sorted`). -/
def strLe (a b : String) : Bool :=
  lexLe a.data b.data

/-- Insert into a sorted list, before the first element that is not below
the inserted one (the stable-insert step of `sortBy`). -/
def insertLe (le : α → α → Bool) (x : α) : List α → List α
  | [] => [x]
  | y :: ys => if le x y then x :: y :: ys else y :: insertLe le x ys

/-- Stable insertion sort; models Python `sorted` and the ascending sort of
`DataFrame.sort_values` (for the verified claims only sortedness and the
multiset of elements matter, not the sorting algorithm). -/
def sortBy (le : α → α → Bool) : List α → List α
  | [] => []
  | x :: xs => insertLe le x (sortBy le xs)

/-- Sort a list of strings lexicographically (model of Python `sorted`). -/
def sortStrings (l : List String) : List String :=
  sortBy strLe l

/-- Encode a UTC timestamp (year, month, day, hour, minute, second,
microsecond) as a natural number; for in-range fields the encoding is
strictly monotone in chronological order, so `datetime` comparison becomes
`Nat` comparison. -/
def encTs (y mo da h mi s us : Nat) : Nat :=
  (((((y * 100 + mo) * 100 + da) * 100 + h) * 100 + mi) * 100 + s) * 1000000 + us

/-- Parse a decimal-digit string as a `Nat`, requiring at least one char and
only digits (the digit fields accepted by `fromisoformat`). -/
def digitsToNat? (s : String) : Option Nat :=
  if s.data ≠ [] ∧ s.data.all (fun c => 48 ≤ c.toNat ∧ c.toNat ≤ 57) then
    some (s.data.foldl (fun n c => n * 10 + (c.toNat - 48)) 0)
  else none

/-- Parse a `fromisoformat` fractional-second field (1 to 6 digits),
returning microseconds. -/
def fracToMicro? (s : String) : Option Nat :=
  if s.data.length ≤ 6 then
    (digitsToNat? s).map (fun n => n * 10 ^ (6 - s.data.length))
  else none

/-- Parse the seconds field of an ISO time, with optional fractional part:
returns (seconds, microseconds). -/
def secondsField? (s : String) : Option (Nat × Nat) :=
  match splitOnChar '.' s with
  | [sec] => (digitsToNat? sec).map (fun n => (n, 0))
  | [sec, frac] =>
      match digitsToNat? sec, fracToMicro? frac with
      | some n, some us => some (n, us)
      | _, _ => none
  | _ => none

/-- Model of `datetime.fromisoformat` on naive or `+00:00`-suffixed UTC
strings, returning the `encTs` encoding.  Field-range validation mirrors
`fromisoformat` raising `ValueError` on out-of-range components.  Strings
carrying a non-UTC offset are outside the modelled scope (no claim needs
them) and map to `none`. -/
def fromIso? (s0 : String) : Option Nat :=
  let s := if endsWithStr s0 "+00:00" then dropRightStr s0 6 else s0
  match splitOnChar 'T' s with
  | [d, t] =>
      match splitOnChar '-' d, splitOnChar ':' t with
      | [ys, mos, das], [hs, mis, ss] =>
          match digitsToNat? ys, digitsToNat? mos, digitsToNat? das,
                digitsToNat? hs, digitsToNat? mis, secondsField? ss with
          | some y, some mo, some da, some h, some mi, some (sec, us) =>
              if 1 ≤ mo ∧ mo ≤ 12 ∧ 1 ≤ da ∧ da ≤ 31 ∧ h ≤ 23 ∧ mi ≤ 59 ∧ sec ≤ 59 then
                some (encTs y mo da h mi sec us)
              else none
          | _, _, _, _, _, _ => none
      | _, _ => none
  | _ => none

/-- Model of `datetime.fromisoformat` following Python ≥ 3.11 in also
accepting a trailing `Z`; used to state "parses as ISO-8601". -/
def fromIsoZ? (s : String) : Option Nat :=
  if endsWithStr s "Z" then fromIso? (dropRightStr s 1) else fromIso? s

/-- Model of `parse_timestamp` in `fix_experiment_labels.py` (identical to
`parse_timestamp_for_labeling` in `ingest.py`): normalize the pipeline's
colon-mangled format (`2025:09:10T06:18:09Z` → `2025-09-10T06:18:09Z`) when
the string has more than two colons, strip trailing `Z`, then
`fromisoformat`; a naive result is assumed UTC.  `none` models the
`ValueError` raised on unparseable input. -/
def parseTimestamp? (s0 : String) : Option Nat :=
  let s1 := if containsSub s0 ":" ∧ 2 < countChar s0 ':' then replaceColon2 s0 else s0
  fromIso? (rstripZ s1)

example : fromIso? "2025-09-10T06:00:00+00:00" = some (encTs 2025 9 10 6 0 0 0) := by decide
example : fromIso? "2025:09:10T06:00:00" = none := by decide
example : fromIsoZ? "2025-09-08T10:15:30Z" = some (encTs 2025 9 8 10 15 30 0) := by decide
example : fromIsoZ? "2025:09:08T10:15:30Z" = none := by decide
example : parseTimestamp? "2025:09:08T10:15:30Z" = some (encTs 2025 9 8 10 15 30 0) := by decide
example : parseTimestamp? "2025-09-10T05:59:59Z" = some (encTs 2025 9 10 5 59 59 0) := by decide
example : parseTimestamp? "garbage" = none := by decide
example : parseTimestamp? "2025-09-10T12:34:56.789012" = some (encTs 2025 9 10 12 34 56 789012) := by decide
example : sortStrings ["b=2", "a=1"] = ["a=1", "b=2"] := by decide
example : joinWith '|' ["a=1", "b=2"] = "a=1|b=2" := by decide

/-- Model of `pd.to_datetime(..., errors="coerce")`, the parser the Dedup
step sorts by: hyphenated ISO-8601 (optionally `Z`-suffixed) parses, while
the colon-mangled `YYYY:MM:DDTHH:MM:SSZ` format that ingest stamps on
every filename-timestamped record is not a format pandas recognizes and is
coerced to `NaT` (`none`). -/
def toDatetimeCoerce? : String → Option Nat :=
  fromIsoZ?

/-- A dynamically-typed cell value: string, integer, or missing (`NaN`/null).
The spec's tagged scalar union for CSV-origin data. -/
inductive Scalar
  | str (s : String)
  | num (n : Int)
  | nan
deriving DecidableEq

/-- Model of `pd.notna` on a cell. -/
def Scalar.notna : Scalar → Bool
  | .nan => false
  | _ => true

/-- Model of Python `str(value)` as used in f-string interpolation of cell
values. -/
def Scalar.render : Scalar → String
  | .str s => s
  | .num n => toString n
  | .nan => "nan"

/-- A record: a pandas `Series` as an ordered association of column name to
cell value. -/
abbrev Row := List (String × Scalar)

/-- Model of `row[col]` access, `none` when the column is absent. -/
def rowLookup (r : Row) (c : String) : Option Scalar :=
  (r.find? (fun p => p.1 = c)).map (fun p => p.2)

/-- Model of the Python guard `col in row and pd.notna(row[col])`. -/
def rowHasVal (r : Row) (c : String) : Bool :=
  match rowLookup r c with
  | some v => v.notna
  | none => false

/-- Model of collecting `f"{col}={row[col]}"` when the column is present and
non-null (the repeated pattern in `generate_dedup_key`). -/
def colPair (r : Row) (c : String) : Option String :=
  match rowLookup r c with
  | some v => if v.notna then some (c ++ "=" ++ v.render) else none
  | none => none

/-- The fixed identity columns of dedup tier 1 (`primary_keys` in
`generate_dedup_key`). -/
def primaryKeys : List String :=
  ["experiment_label", "kraken_simulation_id", "ines_simulation_id"]

/-- The reserved metadata name beginnings excluded from dedup tier 3 (the
tuple passed to `str.startswith` in `generate_dedup_key`). -/
def metaHeads : List String :=
  ["experiment_", "schema_", "source", "synced_at"]

/-- A column is metadata for tier 3 iff its name starts with one of the
reserved beginnings. -/
def isMetadataCol (c : String) : Bool :=
  metaHeads.any (fun p => pyStartsWith c p)

/-- Model of `generate_dedup_key(row, fallback_columns)` in `ingest.py`.
`digest` stands for `hashlib.md5(...).hexdigest()` (an external library
call; the spec requires only a fixed deterministic digest). -/
def generateDedupKey (digest : String → String) (fallbackColumns : List String)
    (row : Row) : String :=
  let keyParts := primaryKeys.filterMap (colPair row)
  if 2 ≤ keyParts.length then joinWith '|' keyParts
  else
    let fallbackValues := fallbackColumns.filterMap (colPair row)
    if fallbackValues ≠ [] then digest (joinWith '|' (sortStrings fallbackValues))
    else
      let nonMetadataCols := (row.map Prod.fst).filter (fun c => ¬ isMetadataCol c)
      let allValues := nonMetadataCols.filterMap (colPair row)
      if allValues ≠ [] then digest (joinWith '|' (sortStrings allValues))
      else "unknown"

/-- A pandas `DataFrame`: ordered column names and rows of cells (each row
aligned with `cols`). -/
structure DF where
  cols : List String
  rows : List (List Scalar)
deriving DecidableEq

/-- The empty `pd.DataFrame()`. -/
def emptyDF : DF := ⟨[], []⟩

/-- The rows of a frame as association lists (Series with index). -/
def DF.assoc (df : DF) : List Row :=
  df.rows.map (fun vs => df.cols.zip vs)

/-- Model of `df[c] = v` for a constant `v`: overwrite the column if it
exists, otherwise append it. -/
def DF.assign (df : DF) (c : String) (v : Scalar) : DF :=
  if df.cols.contains c then
    ⟨df.cols,
     df.rows.map (fun vs => (df.cols.zip vs).map (fun p => if p.1 = c then v else p.2))⟩
  else ⟨df.cols ++ [c], df.rows.map (fun vs => vs ++ [v])⟩

/-- Ordered union of column lists (the column result of `pd.concat` with
`sort=False`: first frame's columns, then unseen ones in order of
appearance). -/
def unionCols : List (List String) → List String
  | [] => []
  | cs :: rest => cs ++ ((unionCols rest).filter (fun c => ¬ cs.contains c))

/-- Align a record to a column list, filling missing columns with `NaN`. -/
def reindexRow (cols : List String) (r : Row) : List Scalar :=
  cols.map (fun c => (rowLookup r c).getD .nan)

/-- Model of `pd.concat(dfs, ignore_index=True, sort=False)`. -/
def concatDF (dfs : List DF) : DF :=
  let cols := unionCols (dfs.map DF.cols)
  ⟨cols, (dfs.map (fun df => df.assoc.map (reindexRow cols))).flatten⟩

/-- The name fragments that mark a column as numeric-looking
(`numeric_patterns` in `normalize_numeric_columns`). -/
def numericPatterns : List String :=
  ["cost", "latency", "size", "time", "rate", "count", "id"]

/-- ASCII lower-casing of a character (Python `str.lower` on the
identifiers involved). -/
def charToLower (c : Char) : Char :=
  if 65 ≤ c.toNat ∧ c.toNat ≤ 90 then Char.ofNat (c.toNat + 32) else c

/-- ASCII lower-casing of a string. -/
def strToLower (s : String) : String :=
  ⟨s.data.map charToLower⟩

/-- A column is treated as numeric iff its lower-cased name contains one of
the numeric patterns. -/
def isNumericCol (c : String) : Bool :=
  numericPatterns.any (fun p => containsSub (strToLower c) p)

/-- Parse an optionally-signed integer literal (the integer fragment of
`pd.to_numeric`; fractional values are outside the modelled scalar type and
coerce to `NaN`, which no verified claim depends on). -/
def parseIntStr? (s : String) : Option Int :=
  match s.data with
  | '-' :: rest =>
      if rest ≠ [] ∧ rest.all (fun c => 48 ≤ c.toNat ∧ c.toNat ≤ 57) then
        some (-(Int.ofNat (rest.foldl (fun n c => n * 10 + (c.toNat - 48)) 0)))
      else none
  | l =>
      if l ≠ [] ∧ l.all (fun c => 48 ≤ c.toNat ∧ c.toNat ≤ 57) then
        some (Int.ofNat (l.foldl (fun n c => n * 10 + (c.toNat - 48)) 0))
      else none

/-- Model of `pd.to_numeric(x, errors="coerce")` on one cell. -/
def toNumericCoerce : Scalar → Scalar
  | .num n => .num n
  | .nan => .nan
  | .str s =>
      match parseIntStr? s with
      | some n => .num n
      | none => .nan

/-- Model of `normalize_numeric_columns`: coerce every cell of a
numeric-looking column. -/
def normalizeDF (df : DF) : DF :=
  ⟨df.cols,
   df.rows.map (fun vs =>
     (df.cols.zip vs).map (fun p => if isNumericCol p.1 then toNumericCoerce p.2 else p.2))⟩

example : isNumericCol "kraken_simulation_id" = true := by decide
example : isNumericCol "snapshot_file" = false := by decide
example : isNumericCol "synced_at" = false := by decide
example : isMetadataCol "snapshot_file" = false := by decide
example : isMetadataCol "synced_at" = true := by decide
example : isMetadataCol "source" = true := by decide

/-- One registry entry as persisted in `experiment_periods.json`:
`start_time`/`end_time` ISO strings and a schema version. -/
structure PeriodData where
  startTime : String
  endTime : Option String
  schemaVersion : String
deriving DecidableEq

/-- The in-memory `self._periods` dict: label-keyed, insertion-ordered. -/
abbrev Registry := List (String × PeriodData)

/-- The per-period containment test inside
`ExperimentPeriodManager.get_experiment_for_timestamp` (lines 74-94):
skip when `t < start`; when a truthy `end_time` exists, skip when
`t >= end`; otherwise the period matches.  `none` models a `ValueError`
from `fromisoformat` on a malformed stored string. -/
def periodMatches (p : PeriodData) (t : Nat) : Option Bool :=
  match fromIso? p.startTime with
  | none => none
  | some s =>
      if t < s then some false
      else
        match p.endTime with
        | none => some true
        | some es =>
            if es = "" then some true
            else
              match fromIso? es with
              | none => none
              | some e => some (decide (t < e))

/-- Model of `get_experiment_for_timestamp`: first matching period in
insertion order wins; with no match the sentinel `"unknown"` is returned.
The argument is the already-UTC-normalized instant. -/
def resolveT : Registry → Nat → Option String
  | [], _ => some "unknown"
  | (lbl, p) :: rest, t =>
      match periodMatches p t with
      | none => none
      | some true => some lbl
      | some false => resolveT rest t

/-- Left-pad a number with zeros to a given width (the fixed-width fields
of `datetime.isoformat`). -/
def padNum (w n : Nat) : String :=
  ⟨List.replicate (w - (toString n).data.length) '0'⟩ ++ toString n

/-- Render an `encTs`-encoded UTC instant the way
`datetime.astimezone(utc).isoformat()` does. -/
def encToIso (n : Nat) : String :=
  let us := n % 1000000
  let r1 := n / 1000000
  let sec := r1 % 100
  let r2 := r1 / 100
  let mi := r2 % 100
  let r3 := r2 / 100
  let h := r3 % 100
  let r4 := r3 / 100
  let da := r4 % 100
  let r5 := r4 / 100
  let mo := r5 % 100
  let y := r5 / 100
  padNum 4 y ++ "-" ++ padNum 2 mo ++ "-" ++ padNum 2 da ++ "T" ++
    padNum 2 h ++ ":" ++ padNum 2 mi ++ ":" ++ padNum 2 sec ++
    (if us = 0 then "" else "." ++ padNum 6 us) ++ "+00:00"

/-- The registry state: the in-memory `_periods` mapping and the persisted
JSON document. -/
structure RegState where
  mem : Registry
  disk : Registry
deriving DecidableEq

/-- `json.dump(..., sort_keys=True)`: the persisted document carries the
entries in label order. -/
def sortPeriodsByLabel (reg : Registry) : Registry :=
  sortBy (fun a b => strLe a.1 b.1) reg

/-- Model of `ExperimentPeriodManager.close_experiment_period`: raise
(`some` error message) when the label is absent, otherwise set the
UTC-normalized end time on the existing entry and persist. -/
def closeExperimentPeriod (st : RegState) (label : String) (endEnc : Nat) :
    RegState × Option String :=
  if (st.mem.map Prod.fst).contains label then
    let mem' := st.mem.map (fun p =>
      if p.1 = label then (p.1, { p.2 with endTime := some (encToIso endEnc) }) else p)
    ({ mem := mem', disk := sortPeriodsByLabel mem' }, none)
  else
    (st, some ("Experiment " ++ label ++ " not found"))

/-- The `synced_at` cell of a record, sent through `pd.to_datetime`
(`toDt`); a missing or non-string cell is `NaT`. -/
def rowSyncedDt (toDt : String → Option Nat) (r : Row) : Option Nat :=
  match rowLookup r "synced_at" with
  | some (.str s) => toDt s
  | _ => none

/-- Ascending order on `to_datetime` results with `NaT` sorted last
(`sort_values` default `na_position="last"`). -/
def leDt : Option Nat → Option Nat → Bool
  | _, none => true
  | none, some _ => false
  | some a, some b => decide (a ≤ b)

/-- Model of `drop_duplicates(subset=key, keep="last")`: keep an element
iff no later element has the same key. -/
def dropDupKeepLast {β : Type} [DecidableEq β] (f : α → β) : List α → List α
  | [] => []
  | x :: xs =>
      if xs.any (fun y => f y = f x) then dropDupKeepLast f xs
      else x :: dropDupKeepLast f xs

/-- The Dedup step of `process_snapshots` (lines 327-340): derive a dedup
key per record, sort ascending by parsed `synced_at`, and keep the last
record of every key group. -/
def dedupRows (digest : String → String) (toDt : String → Option Nat)
    (fallbackColumns : List String) (rows : List Row) : List Row :=
  let sorted := sortBy (fun r1 r2 => leDt (rowSyncedDt toDt r1) (rowSyncedDt toDt r2)) rows
  dropDupKeepLast (generateDedupKey digest fallbackColumns) sorted

/-- The Dedup step on a frame (the helper `_dedup_key`/`_synced_at_dt`
columns are added and dropped again, leaving the original columns). -/
def dedupStep (digest : String → String) (toDt : String → Option Nat)
    (fallbackColumns : List String) (df : DF) : DF :=
  ⟨df.cols, (dedupRows digest toDt fallbackColumns df.assoc).map (fun r => r.map Prod.snd)⟩

/-- The configured source (`sources.yaml` + `.env`): current experiment
label, schema version, source name, and `analysis.required_columns` used as
dedup fallback columns. -/
structure Config where
  experimentLabel : String
  schemaVersion : String
  sourceName : String
  fallbackColumns : List String
deriving DecidableEq

/-- A snapshot file: its file name and its parse result (`none` models
`pd.read_csv` raising, which skips the file). -/
structure SnapshotFile where
  name : String
  parsed : Option DF
deriving DecidableEq

/-- Model of `pathlib.Path(...).stem` for the snapshot names in play: the
name with its final dot-suffix removed. -/
def pathStem (name : String) : String :=
  let parts := splitOnChar '.' name
  if 2 ≤ parts.length then joinWith '.' parts.dropLast else name

/-- Model of `extract_timestamp_from_filename`: the stem's dot-parts after
the first, re-joined, with every `-` replaced by `:` (note: *every*
hyphen, including the date's). -/
def extractTimestampFromFilename (name : String) : Option String :=
  let nameParts := splitOnChar '.' (pathStem name)
  if 2 ≤ nameParts.length then
    some (replaceAllChar '-' ':' (joinWith '.' nameParts.tail))
  else none

example : extractTimestampFromFilename "run_results.2025-09-08T10-15-30Z.csv" =
    some "2025:09:08T10:15:30Z" := by decide

/-- Model of `get_experiment_label_for_timestamp`: parse the timestamp
string and resolve it against the registry; any exception (unparseable
timestamp or a `ValueError` inside resolution) falls back to the
configured label. -/
def getExperimentLabelForTimestamp (ts : String) (reg : Registry)
    (fallbackLabel : String) : String :=
  match parseTimestamp? ts with
  | none => fallbackLabel
  | some t =>
      match resolveT reg t with
      | none => fallbackLabel
      | some lbl => lbl

/-- The Label step of `process_snapshots` (lines 271-289): extract the
timestamp from the file name (falling back to ingest-time now), resolve
the experiment label, and stamp the five metadata columns. -/
def annotateDF (cfg : Config) (reg : Registry) (nowTs : String)
    (fname : String) (df : DF) : DF :=
  let tsStr := (extractTimestampFromFilename fname).getD nowTs
  let lbl := getExperimentLabelForTimestamp tsStr reg cfg.experimentLabel
  ((((df.assign "experiment_label" (.str lbl)).assign
      "schema_version" (.str cfg.schemaVersion)).assign
      "source" (.str cfg.sourceName)).assign
      "snapshot_file" (.str fname)).assign
      "synced_at" (.str tsStr)

/-- Model of `get_processed_snapshots`: the `snapshot_file` values of the
existing curated frame (empty when there is no file, the read fails, or
the column is absent).  Set membership is modelled by list membership. -/
def getProcessedSnapshots : Option DF → List Scalar
  | none => []
  | some df =>
      if df.cols.contains "snapshot_file" then
        df.assoc.map (fun r => (rowLookup r "snapshot_file").getD .nan)
      else []

/-- The Filter-new step (lines 248-254): a file is new iff its name is not
among the processed `snapshot_file` values. -/
def newSnapshotFiles (files : List SnapshotFile) (existing : Option DF) :
    List SnapshotFile :=
  files.filter (fun f => !(getProcessedSnapshots existing).contains (.str f.name))

/-- The parsed-and-annotated frames of the new files (files whose read
raises are logged and skipped). -/
def ingestNewDFs (cfg : Config) (reg : Registry) (nowTs : String)
    (files : List SnapshotFile) (existing : Option DF) : List DF :=
  (newSnapshotFiles files existing).filterMap
    (fun f => f.parsed.map (annotateDF cfg reg nowTs f.name))

/-- The Union + normalize stage of `process_snapshots` (lines 301-320):
concatenate the new frames, prepend the existing curated frame, and
normalize numeric columns. -/
def ingestCombined (cfg : Config) (reg : Registry) (nowTs : String)
    (files : List SnapshotFile) (existing : Option DF) : DF :=
  let combined := concatDF (ingestNewDFs cfg reg nowTs files existing)
  let combined :=
    match existing with
    | some e => concatDF [e, combined]
    | none => combined
  normalizeDF combined

/-- Model of `process_snapshots`: early-return an empty frame when there
are no files, no new files, or no parseable new files; otherwise
union + normalize + dedup. -/
def processSnapshots (digest : String → String) (toDt : String → Option Nat)
    (cfg : Config) (reg : Registry) (files : List SnapshotFile)
    (existing : Option DF) (nowTs : String) : DF :=
  if files.isEmpty then emptyDF
  else if (newSnapshotFiles files existing).isEmpty then emptyDF
  else if (ingestNewDFs cfg reg nowTs files existing).isEmpty then emptyDF
  else dedupStep digest toDt cfg.fallbackColumns (ingestCombined cfg reg nowTs files existing)

/-- One ingest run at the `main` level: the curated artifact (`none` =
absent) is replaced by the processed frame unless that frame is empty, in
which case the artifact is left as it is. -/
def runIngest (digest : String → String) (toDt : String → Option Nat)
    (cfg : Config) (reg : Registry) (files : List SnapshotFile)
    (nowTs : String) (st : Option DF) : Option DF :=
  let df := processSnapshots digest toDt cfg reg files st nowTs
  if df.rows.isEmpty then st else some df

/-- The repair tool's working state: the curated artifact and the backup
copies taken so far (newest first; paths are out of scope, contents are
kept). -/
structure ArtifactState where
  artifact : DF
  backups : List DF
deriving DecidableEq

/-- Model of `df['synced_at'].apply(parse_timestamp)`: all parsed instants,
`none` when any row raises (missing column, non-string cell, or
unparseable value). -/
def parseAllSynced (df : DF) : Option (List Nat) :=
  df.assoc.mapM (fun r =>
    match rowLookup r "synced_at" with
    | some (.str s) => parseTimestamp? s
    | _ => none)

/-- Overwrite the `experiment_label` column with the given per-row labels
(the `df['experiment_label'] = df['_new_experiment_label']` step; the two
helper columns are added and dropped again). -/
def relabelRows (df : DF) (newLabels : List String) : DF :=
  ⟨df.cols,
   ((df.assoc.zip newLabels).map (fun p =>
     p.1.map (fun q => if q.1 = "experiment_label" then Scalar.str p.2 else q.2)))⟩

/-- Model of `fix_labels_with_cutoff`: relabel by comparing each record's
parsed `synced_at` with the cutoff instant (no registry is consulted).
`dryRun` returns before any mutation; on a real run `backupOk = false`
models `shutil.copy2` raising, which aborts before any mutation; on
success the pre-mutation artifact is pushed onto `backups` and the
artifact is overwritten.  The `Bool` result is completion
(`false` = aborted by an exception). -/
def fixLabelsWithCutoff (st : ArtifactState) (cutoff : Nat)
    (oldLabel newLabel : String) (dryRun backupOk : Bool) :
    ArtifactState × Bool :=
  match parseAllSynced st.artifact, st.artifact.cols.contains "experiment_label" with
  | some dts, true =>
      if dryRun then (st, true)
      else if backupOk then
        let newLabels := dts.map (fun d => if d < cutoff then oldLabel else newLabel)
        ({ artifact := relabelRows st.artifact newLabels,
           backups := st.artifact :: st.backups }, true)
      else (st, false)
  | _, _ => (st, false)

/-- Model of `fix_labels_with_periods`: relabel every record through
`get_experiment_for_timestamp` on the current registry; a `ValueError`
during resolution aborts before any mutation.  Backup/dry-run discipline
as in `fixLabelsWithCutoff`. -/
def fixLabelsWithPeriods (st : ArtifactState) (reg : Registry)
    (dryRun backupOk : Bool) : ArtifactState × Bool :=
  match parseAllSynced st.artifact, st.artifact.cols.contains "experiment_label" with
  | some dts, true =>
      match dts.mapM (resolveT reg) with
      | none => (st, false)
      | some newLabels =>
          if dryRun then (st, true)
          else if backupOk then
            ({ artifact := relabelRows st.artifact newLabels,
               backups := st.artifact :: st.backups }, true)
          else (st, false)
  | _, _ => (st, false)

/-- Count the records of a frame labeled `l` (one entry of
`value_counts()` on `experiment_label`). -/
def countLabel (df : DF) (l : String) : Nat :=
  (df.assoc.filter (fun r => rowLookup r "experiment_label" = some (.str l))).length

/-- The distinct-or-not list of `snapshot_file` values of the curated
artifact (coverage, as a membership set). -/
def snapshotCoverage : Option DF → List Scalar :=
  getProcessedSnapshots


/-- The tier-3 "column=value" pairs of a record: every present, non-null
column whose name does not start with a reserved metadata beginning (the
`all_values` list inside `generate_dedup_key`). -/
def tier3Pairs (row : Row) : List String :=
  ((row.map Prod.fst).filter (fun c => ¬ isMetadataCol c)).filterMap (colPair row)

/-- A frame is aligned when every row has exactly one cell per column (an
invariant of every pandas frame). -/
def DF.aligned (df : DF) : Prop :=
  ∀ vs ∈ df.rows, df.cols.length = vs.length

/-- The registry of the spec's Scenario A, as `register_new_experiment`
persists it: `expA` over `[2025-01-01, 2025-09-10T06:00:00Z)` and `expB`
open-ended from `2025-09-10T06:00:00Z`. -/
def scenarioARegistry : Registry :=
  [("expA", ⟨"2025-01-01T00:00:00+00:00", some "2025-09-10T06:00:00+00:00", "v1"⟩),
   ("expB", ⟨"2025-09-10T06:00:00+00:00", none, "v1"⟩)]

/-- Digest instance for the concrete scenarios below.  Their dedup keys are
derived by tier 1 (two identity fields present), which never calls the
digest, so any function is faithful there. -/
def rawDigest : String → String := fun s => s

/-- Configured source for the concrete ingest scenarios. -/
def cfgDemo : Config := ⟨"cfgLabel", "v1", "cloud-11", []⟩

/-- First snapshot: one record of simulation 1, exported 2025-09-08. -/
def covFileA : SnapshotFile :=
  ⟨"run_results.2025-09-08T10-15-30Z.csv", some ⟨["kraken_simulation_id"], [[.str "1"]]⟩⟩

/-- Overlapping snapshot: the same simulation 1 re-exported 2025-09-09. -/
def covFileB : SnapshotFile :=
  ⟨"run_results.2025-09-09T10-15-30Z.csv", some ⟨["kraken_simulation_id"], [[.str "1"]]⟩⟩


/-- A second-day snapshot holding a *different* simulation (no dedup-key
collision with `covFileA`). -/
def covFileC : SnapshotFile :=
  ⟨"run_results.2025-09-09T10-15-30Z.csv", some ⟨["kraken_simulation_id"], [[.str "2"]]⟩⟩

/-- Curated artifact after ingesting snapshot A alone. -/
def c7StateOne : Option DF :=
  runIngest rawDigest parseTimestamp? cfgDemo [] [covFileA] "now" none

/-- Curated artifact after the successive run that also sees snapshot B. -/
def c7StateTwo : Option DF :=
  runIngest rawDigest parseTimestamp? cfgDemo [] [covFileA, covFileB] "now" c7StateOne

/-- A snapshot file holding one record. -/
def c3FileFull : SnapshotFile :=
  ⟨"run_results.2025-09-08T10-15-30Z.csv", some ⟨["x"], [[.str "a"]]⟩⟩

/-- A snapshot file that parses but holds zero records (a header-only
CSV). -/
def c3FileEmpty : SnapshotFile :=
  ⟨"run_results.2025-09-09T10-15-30Z.csv", some ⟨["x"], []⟩⟩

/-- Curated artifact after a first ingest run over the unchanged directory
holding the one-record file and the zero-record file. -/
def c3StateOne : Option DF :=
  runIngest rawDigest parseTimestamp? cfgDemo [] [c3FileFull, c3FileEmpty] "now" none

/-- Two records sharing a tier-1 dedup key, synced a day apart (for the
dedup-correctness witness). -/
def c1RowEarly : Row :=
  [("experiment_label", .str "e"), ("kraken_simulation_id", .num 1),
   ("synced_at", .str "2025-09-08T00:00:00Z")]

/-- The later duplicate of `c1RowEarly`. -/
def c1RowLate : Row :=
  [("experiment_label", .str "e"), ("kraken_simulation_id", .num 1),
   ("synced_at", .str "2025-09-09T00:00:00Z")]

/-- A 2251-row curated frame, 1200 rows synced before
2025-09-10T06:00:00Z and 1051 after (the spec's Scenario B shape). -/
def c4Dataset : DF :=
  ⟨["synced_at", "experiment_label"],
   List.replicate 1200 [.str "2025-09-09T00:00:00Z", .str "mixed"] ++
     List.replicate 1051 [.str "2025-09-11T00:00:00Z", .str "mixed"]⟩

/-- A registry state holding only `expA` (for the close-missing-label
witness). -/
def c5RegState : RegState :=
  ⟨[("expA", ⟨"2025-01-01T00:00:00+00:00", none, "v1"⟩)],
   [("expA", ⟨"2025-01-01T00:00:00+00:00", none, "v1"⟩)]⟩


theorem insertLe_perm (le : α → α → Bool) (x : α) (l : List α) :
    (insertLe le x l).Perm (x :: l) := by
  induction l with
  | nil => exact .refl _
  | cons y ys ih =>
      simp only [insertLe]
      split
      · exact .refl _
      · exact (ih.cons y).trans (List.Perm.swap x y ys)

theorem sortBy_perm (le : α → α → Bool) (l : List α) : (sortBy le l).Perm l := by
  induction l with
  | nil => exact .refl _
  | cons x xs ih => exact (insertLe_perm le x (sortBy le xs)).trans (ih.cons x)

theorem mem_insertLe {le : α → α → Bool} {x z : α} {l : List α} :
    z ∈ insertLe le x l ↔ z = x ∨ z ∈ l := by
  rw [(insertLe_perm le x l).mem_iff, List.mem_cons]

theorem pairwise_insertLe {le : α → α → Bool}
    (htrans : ∀ a b c, le a b = true → le b c = true → le a c = true)
    (htotal : ∀ a b, (le a b || le b a) = true) (x : α) :
    ∀ {l : List α}, l.Pairwise (fun a b => le a b = true) →
      (insertLe le x l).Pairwise (fun a b => le a b = true) := by
  intro l
  induction l with
  | nil => intro _; simp [insertLe]
  | cons y ys ih =>
      intro hp
      rcases List.pairwise_cons.mp hp with ⟨hy, hys⟩
      simp only [insertLe]
      split
      · rename_i hxy
        refine List.pairwise_cons.mpr ⟨?_, hp⟩
        intro z hz
        rcases List.mem_cons.mp hz with rfl | hz
        · exact hxy
        · exact htrans x y z hxy (hy z hz)
      · rename_i hxy
        have hyx : le y x = true := by
          have := htotal x y
          rcases Bool.or_eq_true_iff.mp this with h | h
          · exact absurd h hxy
          · exact h
        refine List.pairwise_cons.mpr ⟨?_, ih hys⟩
        intro z hz
        rcases mem_insertLe.mp hz with rfl | hz
        · exact hyx
        · exact hy z hz

theorem sortBy_pairwise {le : α → α → Bool}
    (htrans : ∀ a b c, le a b = true → le b c = true → le a c = true)
    (htotal : ∀ a b, (le a b || le b a) = true) (l : List α) :
    (sortBy le l).Pairwise (fun a b => le a b = true) := by
  induction l with
  | nil => simp [sortBy]
  | cons x xs ih => exact pairwise_insertLe htrans htotal x ih

theorem dropDupKeepLast_sublist {β : Type} [DecidableEq β] (f : α → β) :
    ∀ l : List α, (dropDupKeepLast f l).Sublist l := by
  intro l
  induction l with
  | nil => exact .refl _
  | cons x xs ih =>
      simp only [dropDupKeepLast]
      split
      · exact ih.cons x
      · exact ih.cons₂ x

theorem mem_dropDupKeepLast_decomp {β : Type} [DecidableEq β] {f : α → β} :
    ∀ {l : List α} {x : α}, x ∈ dropDupKeepLast f l →
      ∃ pre post, l = pre ++ x :: post ∧ ∀ y ∈ post, f y ≠ f x := by
  intro l
  induction l with
  | nil => intro x hx; simp [dropDupKeepLast] at hx
  | cons z zs ih =>
      intro x hx
      simp only [dropDupKeepLast] at hx
      split at hx
      · rcases ih hx with ⟨pre, post, heq, hpost⟩
        exact ⟨z :: pre, post, by simp [heq], hpost⟩
      · rename_i hany
        rcases List.mem_cons.mp hx with rfl | hx
        · refine ⟨[], zs, rfl, ?_⟩
          intro y hy
          have := List.any_eq_false.mp (Bool.eq_false_iff.mpr hany) y hy
          simpa using this
        · rcases ih hx with ⟨pre, post, heq, hpost⟩
          exact ⟨z :: pre, post, by simp [heq], hpost⟩

theorem countP_dropDupKeepLast {β : Type} [DecidableEq β] (f : α → β) (k : β) :
    ∀ l : List α, (dropDupKeepLast f l).countP (fun y => f y = k) =
      if l.any (fun y => f y = k) then 1 else 0 := by
  intro l
  induction l with
  | nil => simp [dropDupKeepLast]
  | cons z zs ih =>
      simp only [dropDupKeepLast]
      split
      · rename_i hany
        rw [ih]
        by_cases hzk : f z = k
        · have : zs.any (fun y => f y = k) = true := by
            subst hzk
            exact hany
          simp [List.any_cons, this]
        · simp [List.any_cons, hzk]
      · rename_i hany
        have hall : ∀ y ∈ zs, f y ≠ f z :=
          fun y hy => by simpa using List.any_eq_false.mp (Bool.eq_false_iff.mpr hany) y hy
        by_cases hzk : f z = k
        · have hzs : zs.any (fun y => f y = k) = false := by
            apply List.any_eq_false.mpr
            intro y hy
            simp only [decide_eq_true_eq]
            rw [← hzk]
            exact hall y hy
          rw [List.countP_cons]
          simp only [hzk, decide_eq_true_eq, if_true, List.any_cons]
          rw [ih]
          simp [hzs, hzk]
        · rw [List.countP_cons]
          simp only [hzk, List.any_cons]
          rw [ih]
          simp [hzk]

theorem mem_dropDupKeepLast_of_unique {β : Type} [DecidableEq β] {f : α → β} :
    ∀ {l : List α} {x : α}, x ∈ l → (∀ y ∈ l, f y = f x → y = x) →
      x ∈ dropDupKeepLast f l := by
  intro l
  induction l with
  | nil => intro x hx; simp at hx
  | cons z zs ih =>
      intro x hx huniq
      simp only [dropDupKeepLast]
      rcases List.mem_cons.mp hx with rfl | hx
      · split
        · rename_i hany
          rcases List.any_eq_true.mp hany with ⟨y, hy, hfy⟩
          have : y = x := huniq y (List.mem_cons_of_mem _ hy) (by simpa using hfy)
          subst this
          exact ih hy (fun w hw hfw => huniq w (List.mem_cons_of_mem _ hw) hfw)
        · exact List.mem_cons_self _ _
      · split
        · exact ih hx (fun w hw hfw => huniq w (List.mem_cons_of_mem _ hw) hfw)
        · exact List.mem_cons_of_mem _ (ih hx (fun w hw hfw => huniq w (List.mem_cons_of_mem _ hw) hfw))

theorem append_sep_inj :
    ∀ (a : List Char) {b s t : List Char}, '|' ∉ a → '|' ∉ b →
      a ++ '|' :: s = b ++ '|' :: t → a = b ∧ s = t := by
  intro a
  induction a with
  | nil =>
      intro b s t _ hb h
      cases b with
      | nil => simpa using h
      | cons c cs =>
          simp only [List.nil_append, List.cons_append, List.cons.injEq] at h
          exact absurd (h.1 ▸ List.mem_cons_self c cs) (by simpa [← h.1] using hb)
  | cons c cs ih =>
      intro b s t ha hb h
      cases b with
      | nil =>
          simp only [List.cons_append, List.nil_append, List.cons.injEq] at h
          exact absurd (h.1 ▸ List.mem_cons_self c cs) (by simpa [h.1] using ha)
      | cons d ds =>
          simp only [List.cons_append, List.cons.injEq] at h
          have ha' : '|' ∉ cs := fun hm => ha (List.mem_cons_of_mem _ hm)
          have hb' : '|' ∉ ds := fun hm => hb (List.mem_cons_of_mem _ hm)
          rcases ih ha' hb' h.2 with ⟨h1, h2⟩
          exact ⟨by rw [h.1, h1], h2⟩

theorem joinWith_pipe_data (x y : String) (t : List String) :
    (joinWith '|' (x :: y :: t)).data = x.data ++ '|' :: (joinWith '|' (y :: t)).data := by
  show (x ++ ⟨['|']⟩ ++ joinWith '|' (y :: t)).data = _
  simp [String.data_append]

theorem joinWith_pipe_inj :
    ∀ (l1 l2 : List String), l1 ≠ [] → l2 ≠ [] →
      (∀ s ∈ l1, '|' ∉ s.data) → (∀ s ∈ l2, '|' ∉ s.data) →
      joinWith '|' l1 = joinWith '|' l2 → l1 = l2 := by
  intro l1
  induction l1 with
  | nil => intro l2 h; exact absurd rfl h
  | cons x t1 ih =>
      intro l2 _ hl2 h1 h2 heq
      cases l2 with
      | nil => exact absurd rfl hl2
      | cons y t2 =>
          cases t1 with
          | nil =>
              cases t2 with
              | nil => simpa [joinWith] using heq
              | cons z t2' =>
                  exfalso
                  have hd : x.data = y.data ++ '|' :: (joinWith '|' (z :: t2')).data := by
                    have := congrArg String.data heq
                    rwa [joinWith_pipe_data] at this
                  exact h1 x (List.mem_cons_self _ _)
                    (hd ▸ (List.mem_append.mpr (Or.inr (List.mem_cons_self _ _))))
          | cons w t1' =>
              cases t2 with
              | nil =>
                  exfalso
                  have hd : y.data = x.data ++ '|' :: (joinWith '|' (w :: t1')).data := by
                    have := congrArg String.data heq.symm
                    rwa [joinWith_pipe_data] at this
                  exact h2 y (List.mem_cons_self _ _)
                    (hd ▸ (List.mem_append.mpr (Or.inr (List.mem_cons_self _ _))))
              | cons z t2' =>
                  have hd := congrArg String.data heq
                  rw [joinWith_pipe_data, joinWith_pipe_data] at hd
                  rcases append_sep_inj x.data (h1 x (List.mem_cons_self _ _))
                      (h2 y (List.mem_cons_self _ _)) hd with ⟨hxy, hrest⟩
                  have hx : x = y := String.ext hxy
                  have ht : w :: t1' = z :: t2' := by
                    refine ih (z :: t2') (by simp) (by simp)
                      (fun s hs => h1 s (List.mem_cons_of_mem _ hs))
                      (fun s hs => h2 s (List.mem_cons_of_mem _ hs)) ?_
                    exact String.ext hrest
                  rw [hx, ht]

theorem mapM_option_length :
    ∀ {α β : Type} (l : List α) (f : α → Option β) (l' : List β),
      l.mapM f = some l' → l'.length = l.length := by
  intro α β l
  induction l with
  | nil =>
      intro f l' h
      have h2 : some ([] : List β) = some l' := h
      have h3 : ([] : List β) = l' := by simpa using h2
      simp [← h3]
  | cons a as ih =>
      intro f l' h
      rw [List.mapM_cons] at h
      cases hfa : f a with
      | none => rw [hfa] at h; simp at h
      | some b =>
          rw [hfa] at h
          cases hrest : as.mapM f with
          | none => rw [hrest] at h; simp at h
          | some bs =>
              rw [hrest] at h
              simp only [Option.bind_eq_bind, Option.some_bind, Option.pure_def,
                Option.some.injEq] at h
              rw [← h]
              simp [ih f bs hrest]

theorem mapM_option_append_cons :
    ∀ {α β : Type} (pre : List α) {x : α} {post : List α} (f : α → Option β)
      {l' : List β}, (pre ++ x :: post).mapM f = some l' →
      ∃ pl xv sl, f x = some xv ∧ pre.mapM f = some pl ∧ post.mapM f = some sl ∧
        l' = pl ++ xv :: sl := by
  intro α β pre
  induction pre with
  | nil =>
      intro x post f l' h
      simp only [List.nil_append, List.mapM_cons] at h
      cases hfx : f x with
      | none => rw [hfx] at h; simp at h
      | some xv =>
          rw [hfx] at h
          cases hrest : post.mapM f with
          | none => rw [hrest] at h; simp at h
          | some sl =>
              rw [hrest] at h
              simp only [Option.bind_eq_bind, Option.some_bind, Option.pure_def,
                Option.some.injEq] at h
              exact ⟨[], xv, sl, rfl, rfl, rfl, by simp [← h]⟩
  | cons a as ih =>
      intro x post f l' h
      simp only [List.cons_append, List.mapM_cons] at h
      cases hfa : f a with
      | none => rw [hfa] at h; simp at h
      | some b =>
          rw [hfa] at h
          cases hrest : (as ++ x :: post).mapM f with
          | none => rw [hrest] at h; simp at h
          | some bs =>
              rw [hrest] at h
              simp only [Option.bind_eq_bind, Option.some_bind, Option.pure_def,
                Option.some.injEq] at h
              rcases ih f hrest with ⟨pl, xv, sl, hfx, hpre, hpost, hbs⟩
              refine ⟨b :: pl, xv, sl, hfx, ?_, hpost, by simp [← h, hbs]⟩
              rw [List.mapM_cons, hfa, hpre]
              rfl

theorem leDt_trans : ∀ a b c, leDt a b = true → leDt b c = true → leDt a c = true := by
  intro a b c h1 h2
  cases a <;> cases b <;> cases c <;> simp [leDt] at * <;> omega

theorem leDt_total : ∀ a b, (leDt a b || leDt b a) = true := by
  intro a b
  cases a <;> cases b <;> simp [leDt] <;> omega

theorem zip_self_map {α β : Type} (l : List α) (g : α → β) :
    l.zip (l.map g) = l.map (fun a => (a, g a)) := by
  simpa using List.zip_map' id g l

theorem zip_zip_map {α β γ : Type} (cs : List α) (g : α × β → γ) :
    ∀ vs : List β, cs.zip ((cs.zip vs).map g) = (cs.zip vs).map (fun q => (q.1, g q)) := by
  induction cs with
  | nil => intro vs; simp
  | cons c cs ih =>
      intro vs
      cases vs with
      | nil => simp
      | cons v vs => simp [ih vs]

theorem zip_map_snd_zip {α β : Type} (cs : List α) :
    ∀ vs : List β, cs.zip ((cs.zip vs).map Prod.snd) = cs.zip vs := by
  induction cs with
  | nil => intro vs; simp
  | cons c cs ih =>
      intro vs
      cases vs with
      | nil => simp
      | cons v vs => simp [ih vs]

theorem find?_fst_map_snd {γ : Type} (g : String × Scalar → γ) (c : String) :
    ∀ r : List (String × Scalar),
      (r.map (fun q => (q.1, g q))).find? (fun p => p.1 = c) =
        (r.find? (fun p => p.1 = c)).map (fun q => (q.1, g q)) := by
  intro r
  induction r with
  | nil => simp
  | cons q r ih =>
      by_cases hq : q.1 = c
      · simp [List.find?_cons, hq]
      · simp [List.find?_cons, hq, ih]

theorem rowLookup_map_keep_fst (r : Row) (g : String × Scalar → Scalar) (c : String) :
    rowLookup (r.map (fun q => (q.1, g q))) c = (r.find? (fun p => p.1 = c)).map g := by
  unfold rowLookup
  rw [find?_fst_map_snd]
  cases r.find? (fun p => p.1 = c) <;> simp

theorem find?_pair_self {β : Type} (f : String → β) (c : String) :
    ∀ {l : List String}, c ∈ l →
      (l.map (fun a => (a, f a))).find? (fun p => p.1 = c) = some (c, f c) := by
  intro l
  induction l with
  | nil => intro h; simp at h
  | cons a l ih =>
      intro hc
      by_cases ha : a = c
      · subst ha; simp [List.find?_cons]
      · rcases List.mem_cons.mp hc with rfl | hc
        · exact absurd rfl ha
        · simp [List.find?_cons, ha, ih hc]

theorem rowLookup_reindex (cols : List String) (r : Row) (c : String) (hc : c ∈ cols) :
    rowLookup (cols.zip (reindexRow cols r)) c = some ((rowLookup r c).getD .nan) := by
  unfold reindexRow rowLookup
  rw [zip_self_map, find?_pair_self _ _ hc]
  rfl

theorem rowLookup_find? (r : Row) (c : String) :
    rowLookup r c = (r.find? (fun p => p.1 = c)).map (fun p => p.2) := rfl

theorem normalizeDF_assoc (df : DF) :
    (normalizeDF df).assoc = df.assoc.map (fun r =>
      r.map (fun q => (q.1, if isNumericCol q.1 then toNumericCoerce q.2 else q.2))) := by
  unfold normalizeDF DF.assoc
  simp only [List.map_map]
  apply List.map_congr_left
  intro vs _
  exact zip_zip_map df.cols _ vs

theorem mem_dedupRows_subset {digest : String → String} {toDt : String → Option Nat}
    {fb : List String} {rows : List Row} {r : Row} :
    r ∈ dedupRows digest toDt fb rows → r ∈ rows := by
  intro h
  unfold dedupRows at h
  have h1 := (dropDupKeepLast_sublist _ _).subset h
  exact (sortBy_perm _ rows).mem_iff.mp h1

theorem dedupStep_assoc (digest : String → String) (toDt : String → Option Nat)
    (fb : List String) (df : DF) :
    (dedupStep digest toDt fb df).assoc = dedupRows digest toDt fb df.assoc := by
  show ((dedupRows digest toDt fb df.assoc).map (fun r => r.map Prod.snd)).map
      (fun vs => df.cols.zip vs) = _
  rw [List.map_map]
  have : ∀ r ∈ dedupRows digest toDt fb df.assoc,
      df.cols.zip (r.map Prod.snd) = r := by
    intro r hr
    rcases List.mem_map.mp (mem_dedupRows_subset hr) with ⟨vs, _, rfl⟩
    exact zip_map_snd_zip df.cols vs
  calc ((dedupRows digest toDt fb df.assoc).map fun r => df.cols.zip (r.map Prod.snd))
      = (dedupRows digest toDt fb df.assoc).map id := List.map_congr_left this
    _ = _ := List.map_id _

/-- C6: for a snapshot named `run_results.2025-09-08T10-15-30Z.csv`, the
`synced_at` value stamped by ingest is `"2025:09:08T10:15:30Z"` — the
filename timestamp with *every* hyphen replaced by a colon — which does
not parse as ISO-8601 (`datetime.fromisoformat` rejects it, even with a
trailing `Z` allowed), contradicting the claim; the pipeline's own
`parse_timestamp` still reads it as the intended UTC instant, so the slip
is the format, not the instant. -/
theorem c6_synced_at_not_iso :
    extractTimestampFromFilename "run_results.2025-09-08T10-15-30Z.csv" =
      some "2025:09:08T10:15:30Z" ∧
    fromIsoZ? "2025:09:08T10:15:30Z" = none ∧
    parseTimestamp? "2025:09:08T10:15:30Z" = some (encTs 2025 9 8 10 15 30 0) := by
  decide

/-- C2: period matching is end-exclusive.  For any period whose stored
start and (truthy) end parse to instants `s` and `e`: the timestamp `e`
itself never matches the period, while every `t` with `s ≤ t < e` does;
and on the spec's Scenario A registry, resolving 2025-09-10T05:59:59Z
yields `"expA"` and resolving 2025-09-10T06:00:00Z yields `"expB"`. -/
theorem c2_period_end_exclusive :
    (∀ (stS es sv : String) (s e t : Nat),
        fromIso? stS = some s → es ≠ "" → fromIso? es = some e →
        periodMatches ⟨stS, some es, sv⟩ e = some false ∧
        (s ≤ t → t < e → periodMatches ⟨stS, some es, sv⟩ t = some true)) ∧
    resolveT scenarioARegistry (encTs 2025 9 10 5 59 59 0) = some "expA" ∧
    resolveT scenarioARegistry (encTs 2025 9 10 6 0 0 0) = some "expB" := by
  refine ⟨?_, by decide, by decide⟩
  intro stS es sv s e t hs hes he
  constructor
  · unfold periodMatches
    rw [hs]
    by_cases h : e < s
    · simp [h]
    · simp [h, hes, he]
  · intro h1 h2
    unfold periodMatches
    rw [hs]
    have hns : ¬ t < s := by omega
    simp [hns, hes, he, h2]

/-- Witness for `c2_period_end_exclusive` at the Scenario A boundary
period. -/
theorem c2_period_end_exclusive_witness :
    periodMatches ⟨"2025-01-01T00:00:00+00:00", some "2025-09-10T06:00:00+00:00", "v1"⟩
      (encTs 2025 9 10 6 0 0 0) = some false ∧
    periodMatches ⟨"2025-01-01T00:00:00+00:00", some "2025-09-10T06:00:00+00:00", "v1"⟩
      (encTs 2025 9 10 5 59 59 0) = some true := by
  have h := c2_period_end_exclusive.1 "2025-01-01T00:00:00+00:00"
    "2025-09-10T06:00:00+00:00" "v1" (encTs 2025 1 1 0 0 0 0)
    (encTs 2025 9 10 6 0 0 0) (encTs 2025 9 10 5 59 59 0)
    (by decide) (by decide) (by decide)
  exact ⟨h.1, h.2 (by decide) (by decide)⟩

/-- C5: closing a label that is not registered fails with the
not-found error and returns the registry state — both the in-memory
mapping and the persisted document — unchanged (the check precedes any
mutation or persist). -/
theorem c5_close_missing_label (st : RegState) (label : String) (endEnc : Nat)
    (h : (st.mem.map Prod.fst).contains label = false) :
    closeExperimentPeriod st label endEnc =
      (st, some ("Experiment " ++ label ++ " not found")) := by
  unfold closeExperimentPeriod
  simp only [h]
  simp only [Bool.false_eq_true, if_false]

/-- Witness for `c5_close_missing_label`: Scenario D's
`close("ghost_experiment", t)` on a registry without that label. -/
theorem c5_close_missing_label_witness :
    closeExperimentPeriod c5RegState "ghost_experiment" (encTs 2025 9 10 6 0 0 0) =
      (c5RegState, some "Experiment ghost_experiment not found") := by
  exact c5_close_missing_label c5RegState "ghost_experiment"
    (encTs 2025 9 10 6 0 0 0) (by decide)

/-- C8: in both repair strategies a dry run never mutates the artifact; a
real run whose backup step fails aborts with the artifact unchanged; and
a real run that does mutate has first pushed a backup equal to the
pre-mutation artifact. -/
theorem c8_backup_discipline (st : ArtifactState) (cutoff : Nat) (o n : String)
    (bok : Bool) (reg : Registry) :
    (fixLabelsWithCutoff st cutoff o n true bok).1 = st ∧
    (fixLabelsWithCutoff st cutoff o n false false).1 = st ∧
    (fixLabelsWithPeriods st reg true bok).1 = st ∧
    (fixLabelsWithPeriods st reg false false).1 = st ∧
    ((fixLabelsWithCutoff st cutoff o n false true).1 = st ∨
      (fixLabelsWithCutoff st cutoff o n false true).1.backups =
        st.artifact :: st.backups) ∧
    ((fixLabelsWithPeriods st reg false true).1 = st ∨
      (fixLabelsWithPeriods st reg false true).1.backups =
        st.artifact :: st.backups) := by
  unfold fixLabelsWithCutoff fixLabelsWithPeriods
  cases hp : parseAllSynced st.artifact with
  | none => simp
  | some dts =>
      cases hc : st.artifact.cols.contains "experiment_label" with
      | false => simp
      | true =>
          cases hm : dts.mapM (resolveT reg) with
          | none =>
              simp only [List.mapM] at hm
              simp [hm]
          | some labels =>
              simp only [List.mapM] at hm
              simp [hm]

/-- C3 (amended): a snapshot file is treated as new iff its name is absent
from the `snapshot_file` values of the existing curated frame; and
whenever every file's name is already present — as after a run in which
every file contributed at least one record — a re-run over the unchanged
directory processes no files and leaves the artifact unchanged. -/
theorem c3_filter_new_idempotent (digest : String → String)
    (toDt : String → Option Nat) (cfg : Config) (reg : Registry)
    (files : List SnapshotFile) (nowTs : String) (st : Option DF) :
    (∀ f ∈ files, (f ∈ newSnapshotFiles files st ↔
        Scalar.str f.name ∉ getProcessedSnapshots st)) ∧
    ((∀ f ∈ files, Scalar.str f.name ∈ getProcessedSnapshots st) →
      newSnapshotFiles files st = [] ∧
      runIngest digest toDt cfg reg files nowTs st = st) := by
  constructor
  · intro f hf
    unfold newSnapshotFiles
    rw [List.mem_filter]
    simp [hf, List.elem_iff]
  · intro hall
    have hnew : newSnapshotFiles files st = [] := by
      unfold newSnapshotFiles
      rw [List.filter_eq_nil_iff]
      intro f hf
      simp [List.elem_iff, hall f hf]
    refine ⟨hnew, ?_⟩
    unfold runIngest processSnapshots
    rw [hnew]
    cases files <;> simp [emptyDF]

/-- C3 counterexample: on a directory holding a one-record snapshot and a
header-only (zero-record) snapshot, the first run ingests the former's
name into `snapshot_file`, but the zero-record file leaves no trace, so
the second run over the unchanged directory still treats it as new —
refuting "the second run processes no files". -/
theorem c3_counterexample :
    newSnapshotFiles [c3FileFull, c3FileEmpty] c3StateOne = [c3FileEmpty] ∧
    Scalar.str c3FileFull.name ∈ getProcessedSnapshots c3StateOne := by
  decide

/-- Witness for `c3_filter_new_idempotent`: a one-file directory whose
file name is already recorded in the artifact. -/
theorem c3_filter_new_idempotent_witness :
    newSnapshotFiles [c3FileFull] (some ⟨["snapshot_file"], [[.str c3FileFull.name]]⟩) = [] ∧
    runIngest rawDigest parseTimestamp? cfgDemo [] [c3FileFull] "now"
        (some ⟨["snapshot_file"], [[.str c3FileFull.name]]⟩) =
      some ⟨["snapshot_file"], [[.str c3FileFull.name]]⟩ := by
  exact (c3_filter_new_idempotent rawDigest parseTimestamp? cfgDemo [] [c3FileFull]
    "now" (some ⟨["snapshot_file"], [[.str c3FileFull.name]]⟩)).2 (by decide)

theorem colPair_eq_none {r : Row} {c : String} (h : rowHasVal r c = false) :
    colPair r c = none := by
  unfold colPair
  unfold rowHasVal at h
  cases hl : rowLookup r c with
  | none => rfl
  | some v =>
      rw [hl] at h
      have h2 : v.notna = false := h
      simp [h2]

/-- C9: when both simulation-id columns are absent or null (tier 1 short
of two fields) but at least one fallback column is present and non-null,
the dedup key is the digest of the lexicographically sorted, `|`-joined
fallback `column=value` pairs — a tier-2 hashed key, never the literal
`"unknown"` (an md5 hex digest is 32 characters, hence the digest
hypothesis). -/
theorem c9_fallback_tier (digest : String → String) (fb : List String) (row : Row)
    (hk : rowHasVal row "kraken_simulation_id" = false)
    (hi : rowHasVal row "ines_simulation_id" = false)
    (hf : fb.filterMap (colPair row) ≠ [])
    (hd : ∀ s, digest s ≠ "unknown") :
    generateDedupKey digest fb row =
      digest (joinWith '|' (sortStrings (fb.filterMap (colPair row)))) ∧
    generateDedupKey digest fb row ≠ "unknown" := by
  have hck := colPair_eq_none hk
  have hci := colPair_eq_none hi
  have hkey : generateDedupKey digest fb row =
      digest (joinWith '|' (sortStrings (fb.filterMap (colPair row)))) := by
    unfold generateDedupKey
    simp only [primaryKeys, List.filterMap_cons, hck, hci, List.filterMap_nil]
    cases hel : colPair row "experiment_label" with
    | none => simp [hf]
    | some v => simp [hf]
  exact ⟨hkey, by rw [hkey]; exact hd _⟩

/-- Witness for `c9_fallback_tier`: Scenario C's record with no
simulation ids and three populated fallback columns. -/
theorem c9_fallback_tier_witness :
    generateDedupKey (fun s => "h" ++ s) ["pc", "pa", "pb"]
        [("pa", .str "1"), ("pb", .str "2"), ("pc", .str "3")] =
      "hpa=1|pb=2|pc=3" ∧
    generateDedupKey (fun s => "h" ++ s) ["pc", "pa", "pb"]
        [("pa", .str "1"), ("pb", .str "2"), ("pc", .str "3")] ≠ "unknown" := by
  have h := c9_fallback_tier (fun s => "h" ++ s) ["pc", "pa", "pb"]
    [("pa", .str "1"), ("pb", .str "2"), ("pc", .str "3")]
    (by decide) (by decide) (by decide)
    (fun s => by
      intro hcontra
      have := congrArg String.data hcontra
      simp [String.data_append] at this)
  refine ⟨?_, h.2⟩
  rw [h.1]
  decide

/-- C1 (amended): after the Dedup step, every dedup key occurring in the
combined record set has exactly one surviving record and the survivors
all come from the combined set; *provided* every record's `synced_at`
parses under the datetime parser the sort uses (the hypothesis `hp`),
every survivor's `synced_at` parses and carries the greatest instant of
its key group.  Without that proviso the rule degrades: `NaT`-coerced
records sort last and win positionally (see the counterexample). -/
theorem c1_dedup_correct (digest : String → String) (toDt : String → Option Nat)
    (fb : List String) (rows : List Row)
    (hp : ∀ r ∈ rows, (rowSyncedDt toDt r).isSome = true) :
    (∀ r ∈ dedupRows digest toDt fb rows, r ∈ rows) ∧
    (∀ r ∈ dedupRows digest toDt fb rows, (rowSyncedDt toDt r).isSome = true) ∧
    ∀ k ∈ rows.map (generateDedupKey digest fb),
      ((dedupRows digest toDt fb rows).filter
          (fun r => generateDedupKey digest fb r = k)).length = 1 ∧
      ∀ r ∈ dedupRows digest toDt fb rows, generateDedupKey digest fb r = k →
        ∀ r' ∈ rows, generateDedupKey digest fb r' = k →
          ∀ a b, rowSyncedDt toDt r' = some a → rowSyncedDt toDt r = some b →
            a ≤ b := by
  have htrans : ∀ r1 r2 r3 : Row,
      leDt (rowSyncedDt toDt r1) (rowSyncedDt toDt r2) = true →
      leDt (rowSyncedDt toDt r2) (rowSyncedDt toDt r3) = true →
      leDt (rowSyncedDt toDt r1) (rowSyncedDt toDt r3) = true :=
    fun _ _ _ => leDt_trans _ _ _
  have htotal : ∀ r1 r2 : Row,
      (leDt (rowSyncedDt toDt r1) (rowSyncedDt toDt r2) ||
        leDt (rowSyncedDt toDt r2) (rowSyncedDt toDt r1)) = true :=
    fun _ _ => leDt_total _ _
  have hperm := sortBy_perm
    (fun r1 r2 => leDt (rowSyncedDt toDt r1) (rowSyncedDt toDt r2)) rows
  refine ⟨fun r hr => mem_dedupRows_subset hr,
    fun r hr => hp r (mem_dedupRows_subset hr), ?_⟩
  intro k hk
  constructor
  · rw [← List.countP_eq_length_filter]
    unfold dedupRows
    rw [countP_dropDupKeepLast]
    have hany : (sortBy (fun r1 r2 => leDt (rowSyncedDt toDt r1) (rowSyncedDt toDt r2))
        rows).any (fun y => generateDedupKey digest fb y = k) = true := by
      rcases List.mem_map.mp hk with ⟨r, hr, rfl⟩
      exact List.any_eq_true.mpr ⟨r, hperm.mem_iff.mpr hr, by simp⟩
    rw [hany]
    rfl
  · intro r hr hrk r' hr' hrk' a b ha hb
    unfold dedupRows at hr
    rcases mem_dropDupKeepLast_decomp hr with ⟨pre, post, hdecomp, hpost⟩
    have hr's : r' ∈ sortBy
        (fun r1 r2 => leDt (rowSyncedDt toDt r1) (rowSyncedDt toDt r2)) rows :=
      hperm.mem_iff.mpr hr'
    rw [hdecomp] at hr's
    rcases List.mem_append.mp hr's with hpre | hrest
    · have hpw := sortBy_pairwise htrans htotal rows
      rw [hdecomp] at hpw
      rcases List.pairwise_append.mp hpw with ⟨_, _, hcross⟩
      have hle := hcross r' hpre r (List.mem_cons_self _ _)
      rw [ha, hb] at hle
      simpa [leDt] using hle
    · rcases List.mem_cons.mp hrest with rfl | hpostmem
      · cases ha.symm.trans hb
        exact Nat.le_refl a
      · exact absurd (hrk'.trans hrk.symm) (hpost r' hpostmem)

/-- Witness for `c1_dedup_correct`: two records sharing a tier-1 key whose
`synced_at` values `pd.to_datetime` does parse (the shape of the
ingest-time-now fallback path), synced a day apart — one survives, and it
is the later one. -/
theorem c1_dedup_correct_witness :
    ((dedupRows rawDigest toDatetimeCoerce? [] [c1RowEarly, c1RowLate]).filter
        (fun r => generateDedupKey rawDigest [] r =
          generateDedupKey rawDigest [] c1RowEarly)).length = 1 ∧
    dedupRows rawDigest toDatetimeCoerce? [] [c1RowEarly, c1RowLate] = [c1RowLate] := by
  constructor
  · exact ((c1_dedup_correct rawDigest toDatetimeCoerce? [] [c1RowEarly, c1RowLate]
      (by decide)).2.2 (generateDedupKey rawDigest [] c1RowEarly) (by decide)).1
  · decide

/-- C1 counterexample, at a reachable pipeline input: ingest stamps the
colon-mangled `synced_at` on every filename-timestamped record, and
`pd.to_datetime` coerces that format to `NaT`, so the sort is degenerate
and `keep="last"` selects by position.  Two new same-key snapshots listed
in reversed modification-time order (discovery order is mtime, decoupled
from the embedded timestamp) leave the *earlier*-synced record as the
sole survivor — both lexicographically and temporally smaller than its
dropped duplicate. -/
theorem c1_dedup_counterexample :
    ((ingestCombined cfgDemo [] "now" [covFileB, covFileA] none).assoc.map
        (generateDedupKey rawDigest [])) =
      ["experiment_label=unknown|kraken_simulation_id=1",
       "experiment_label=unknown|kraken_simulation_id=1"] ∧
    ((ingestCombined cfgDemo [] "now" [covFileB, covFileA] none).assoc.map
        (fun r => rowLookup r "synced_at")) =
      [some (Scalar.str "2025:09:09T10:15:30Z"),
       some (Scalar.str "2025:09:08T10:15:30Z")] ∧
    ((dedupRows rawDigest toDatetimeCoerce? []
        (ingestCombined cfgDemo [] "now" [covFileB, covFileA] none).assoc).map
        (fun r => rowLookup r "synced_at")) =
      [some (Scalar.str "2025:09:08T10:15:30Z")] ∧
    ((runIngest rawDigest toDatetimeCoerce? cfgDemo [] [covFileB, covFileA]
        "now" none).map
        (fun df => df.assoc.map (fun r => rowLookup r "synced_at"))) =
      some [some (Scalar.str "2025:09:08T10:15:30Z")] ∧
    strLe "2025:09:08T10:15:30Z" "2025:09:09T10:15:30Z" = true ∧
    "2025:09:08T10:15:30Z" ≠ "2025:09:09T10:15:30Z" := by
  decide


theorem countP_not_add (p : α → Bool) : ∀ l : List α,
    l.countP p + l.countP (fun a => !(p a)) = l.length := by
  intro l
  induction l with
  | nil => simp
  | cons a l ih =>
      rw [List.countP_cons, List.countP_cons]
      cases h : p a <;> simp [h] <;> omega

theorem countP_zip_snd {α β : Type} (P : β → Bool) :
    ∀ (rs : List α) (ds : List β), rs.length = ds.length →
      (rs.zip ds).countP (fun p => P p.2) = ds.countP P := by
  intro rs
  induction rs with
  | nil =>
      intro ds h
      cases ds with
      | nil => simp
      | cons d ds => simp at h
  | cons r rs ih =>
      intro ds h
      cases ds with
      | nil => simp at h
      | cons d ds =>
          rw [List.zip_cons_cons, List.countP_cons, List.countP_cons]
          rw [ih ds (by simpa using h)]

theorem rowLookup_overwrite {r : Row} (v : Scalar)
    (h : "experiment_label" ∈ r.map Prod.fst) :
    rowLookup (r.map (fun q =>
      (q.1, if q.1 = "experiment_label" then v else q.2))) "experiment_label" = some v := by
  rw [rowLookup_map_keep_fst]
  have hsome : (r.find? (fun p => p.1 = "experiment_label")).isSome = true := by
    rw [List.find?_isSome]
    rcases List.mem_map.mp h with ⟨q, hq, hq1⟩
    exact ⟨q, hq, by simp [hq1]⟩
  rcases Option.isSome_iff_exists.mp hsome with ⟨q0, hq0⟩
  have hpred := List.find?_some hq0
  simp only [decide_eq_true_eq] at hpred
  rw [hq0]
  simp [hpred]

theorem relabelRows_assoc (df : DF) (labels : List String) :
    (relabelRows df labels).assoc =
      (df.assoc.zip labels).map (fun p =>
        p.1.map (fun q =>
          (q.1, if q.1 = "experiment_label" then Scalar.str p.2 else q.2))) := by
  unfold relabelRows DF.assoc
  simp only [List.map_map]
  apply List.map_congr_left
  intro p hp
  have hp1 : p.1 ∈ df.rows.map (fun vs => df.cols.zip vs) := (List.mem_zip hp).1
  rcases List.mem_map.mp hp1 with ⟨vs, _, hvs⟩
  show df.cols.zip (p.1.map _) = _
  rw [← hvs]
  exact zip_zip_map df.cols _ vs

/-- C4: cutoff repair relabels purely by timestamp — the output equals the
input with every record's `experiment_label` overwritten by the old label
when its parsed `synced_at` is strictly before the cutoff and by the new
label otherwise (the function takes no registry argument) — and on any
2251-row dataset with exactly 1200 records before the cutoff the result
holds exactly 1200 old-label and 1051 new-label records. -/
theorem c4_cutoff_partition (st : ArtifactState) (cutoff : Nat) (o n : String)
    (dts : List Nat)
    (hp : parseAllSynced st.artifact = some dts)
    (hc : st.artifact.cols.contains "experiment_label" = true)
    (hali : st.artifact.aligned)
    (hon : o ≠ n) :
    (fixLabelsWithCutoff st cutoff o n false true).1.artifact.assoc =
      (st.artifact.assoc.zip dts).map (fun p =>
        p.1.map (fun q =>
          (q.1, if q.1 = "experiment_label"
            then Scalar.str (if p.2 < cutoff then o else n) else q.2))) ∧
    countLabel (fixLabelsWithCutoff st cutoff o n false true).1.artifact o =
      (dts.filter (fun d => d < cutoff)).length ∧
    countLabel (fixLabelsWithCutoff st cutoff o n false true).1.artifact n =
      (dts.filter (fun d => ¬ d < cutoff)).length ∧
    (dts.length = 2251 → (dts.filter (fun d => d < cutoff)).length = 1200 →
      countLabel (fixLabelsWithCutoff st cutoff o n false true).1.artifact o = 1200 ∧
      countLabel (fixLabelsWithCutoff st cutoff o n false true).1.artifact n = 1051) := by
  have hout : (fixLabelsWithCutoff st cutoff o n false true).1.artifact =
      relabelRows st.artifact (dts.map (fun d => if d < cutoff then o else n)) := by
    unfold fixLabelsWithCutoff
    rw [hp, hc]
    simp
  have hlen : st.artifact.assoc.length = dts.length :=
    (mapM_option_length st.artifact.assoc _ dts hp).symm
  have hassoc : (fixLabelsWithCutoff st cutoff o n false true).1.artifact.assoc =
      (st.artifact.assoc.zip dts).map (fun p =>
        p.1.map (fun q =>
          (q.1, if q.1 = "experiment_label"
            then Scalar.str (if p.2 < cutoff then o else n) else q.2))) := by
    rw [hout, relabelRows_assoc, List.zip_map_right, List.map_map]
    rfl
  have hmemfst : ∀ r ∈ st.artifact.assoc, "experiment_label" ∈ r.map Prod.fst := by
    intro r hr
    rcases List.mem_map.mp hr with ⟨vs, hvs, rfl⟩
    rw [List.map_fst_zip st.artifact.cols vs (Nat.le_of_eq (hali vs hvs))]
    exact List.elem_iff.mp hc
  have hcount : ∀ l : String,
      countLabel (fixLabelsWithCutoff st cutoff o n false true).1.artifact l =
        dts.countP (fun d => (if d < cutoff then o else n) = l) := by
    intro l
    unfold countLabel
    rw [← List.countP_eq_length_filter, hassoc, List.countP_map]
    have hstep : ((st.artifact.assoc.zip dts).countP
        ((fun r => decide (rowLookup r "experiment_label" = some (.str l))) ∘
          (fun p => p.1.map (fun q =>
            (q.1, if q.1 = "experiment_label"
              then Scalar.str (if p.2 < cutoff then o else n) else q.2))))) =
        (st.artifact.assoc.zip dts).countP (fun p =>
          (if p.2 < cutoff then o else n) = l) := by
      apply List.countP_congr
      intro p hpmem
      have h1 := rowLookup_overwrite (r := p.1)
        (Scalar.str (if p.2 < cutoff then o else n))
        (hmemfst p.1 (List.mem_zip hpmem).1)
      simp [Function.comp, h1]
    rw [hstep]
    exact countP_zip_snd (fun d => decide ((if d < cutoff then o else n) = l)) _ _ hlen
  refine ⟨hassoc, ?_, ?_, ?_⟩
  · rw [hcount o, ← List.countP_eq_length_filter]
    apply List.countP_congr
    intro d _
    by_cases hd : d < cutoff
    · simp [hd]
    · simp [hd, Ne.symm hon]
  · rw [hcount n, ← List.countP_eq_length_filter]
    apply List.countP_congr
    intro d _
    by_cases hd : d < cutoff
    · simp [hd, hon]
    · simp [hd]
  · intro hl hb
    have h1 : countLabel (fixLabelsWithCutoff st cutoff o n false true).1.artifact o =
        1200 := by
      rw [hcount o, ← hb, ← List.countP_eq_length_filter]
      apply List.countP_congr
      intro d _
      by_cases hd : d < cutoff
      · simp [hd]
      · simp [hd, Ne.symm hon]
    refine ⟨h1, ?_⟩
    rw [hcount n]
    have hpart := countP_not_add (fun d => decide (d < cutoff)) dts
    have hfl : dts.countP (fun d => decide (d < cutoff)) = 1200 := by
      rw [List.countP_eq_length_filter]
      exact hb
    have : dts.countP (fun d => (if d < cutoff then o else n) = n) =
        dts.countP (fun d => !(decide (d < cutoff))) := by
      apply List.countP_congr
      intro d _
      by_cases hd : d < cutoff
      · simp [hd, hon]
      · simp [hd]
    rw [this]
    omega

theorem mapM_option_replicate {α β : Type} (f : α → Option β) (a : α) (b : β)
    (hf : f a = some b) : ∀ n, (List.replicate n a).mapM f = some (List.replicate n b) := by
  intro n
  induction n with
  | zero => rfl
  | succ n ih =>
      rw [List.replicate_succ, List.mapM_cons, hf, ih]
      rfl

theorem mapM_option_append {α β : Type} (f : α → Option β) {l1 l2 : List α}
    {m1 m2 : List β} (h1 : l1.mapM f = some m1) (h2 : l2.mapM f = some m2) :
    (l1 ++ l2).mapM f = some (m1 ++ m2) := by
  induction l1 generalizing m1 with
  | nil =>
      have : some ([] : List β) = some m1 := h1
      have hm : ([] : List β) = m1 := by simpa using this
      simpa [← hm] using h2
  | cons a as ih =>
      rw [List.mapM_cons] at h1
      cases hfa : f a with
      | none => rw [hfa] at h1; simp at h1
      | some b =>
          rw [hfa] at h1
          cases hrest : as.mapM f with
          | none => rw [hrest] at h1; simp at h1
          | some bs =>
              rw [hrest] at h1
              simp only [Option.bind_eq_bind, Option.some_bind, Option.pure_def,
                Option.some.injEq] at h1
              rw [List.cons_append, List.mapM_cons, hfa, ih hrest]
              simp [← h1]

/-- Witness for `c4_cutoff_partition`: Scenario B — on the 2251-row
dataset with 1200 records synced before 2025-09-10T06:00:00Z, the cutoff
repair yields exactly 1200 `kraken1.0` and 1051 `kraken1.1` records. -/
theorem c4_cutoff_partition_witness :
    countLabel (fixLabelsWithCutoff ⟨c4Dataset, []⟩ (encTs 2025 9 10 6 0 0 0)
        "kraken1.0" "kraken1.1" false true).1.artifact "kraken1.0" = 1200 ∧
    countLabel (fixLabelsWithCutoff ⟨c4Dataset, []⟩ (encTs 2025 9 10 6 0 0 0)
        "kraken1.0" "kraken1.1" false true).1.artifact "kraken1.1" = 1051 := by
  have hassoc : c4Dataset.assoc =
      List.replicate 1200 (["synced_at", "experiment_label"].zip
        [Scalar.str "2025-09-09T00:00:00Z", Scalar.str "mixed"]) ++
      List.replicate 1051 (["synced_at", "experiment_label"].zip
        [Scalar.str "2025-09-11T00:00:00Z", Scalar.str "mixed"]) := by
    unfold c4Dataset DF.assoc
    rw [List.map_append, List.map_replicate, List.map_replicate]
  have hp : parseAllSynced c4Dataset =
      some (List.replicate 1200 (encTs 2025 9 9 0 0 0 0) ++
        List.replicate 1051 (encTs 2025 9 11 0 0 0 0)) := by
    unfold parseAllSynced
    rw [hassoc]
    exact mapM_option_append _
      (mapM_option_replicate _ _ _ (by decide) 1200)
      (mapM_option_replicate _ _ _ (by decide) 1051)
  have hali : c4Dataset.aligned := by
    intro vs hvs
    unfold c4Dataset at hvs
    simp only [List.mem_append] at hvs
    rcases hvs with h | h <;> rw [List.eq_of_mem_replicate h] <;> rfl
  have h := c4_cutoff_partition ⟨c4Dataset, []⟩ (encTs 2025 9 10 6 0 0 0)
    "kraken1.0" "kraken1.1"
    (List.replicate 1200 (encTs 2025 9 9 0 0 0 0) ++
      List.replicate 1051 (encTs 2025 9 11 0 0 0 0))
    hp (by decide) hali (by decide)
  have hlen2251 : (List.replicate 1200 (encTs 2025 9 9 0 0 0 0) ++
      List.replicate 1051 (encTs 2025 9 11 0 0 0 0)).length = 2251 := by
    rw [List.length_append, List.length_replicate, List.length_replicate]
  have ht1 : decide (encTs 2025 9 9 0 0 0 0 < encTs 2025 9 10 6 0 0 0) = true := by
    decide
  have ht2 : decide (encTs 2025 9 11 0 0 0 0 < encTs 2025 9 10 6 0 0 0) = false := by
    decide
  refine h.2.2.2 hlen2251 ?_
  rw [List.filter_append, List.filter_replicate, List.filter_replicate, ht1, ht2]
  rw [if_pos rfl, if_neg (by simp), List.append_nil, List.length_replicate]

/-- C7 counterexample: snapshot A holds the only record of simulation 1;
the next run ingests overlapping snapshot B re-exporting the same
simulation with a later `synced_at`, dedup drops A's record, and A's file
name disappears from the curated artifact's `snapshot_file` set — the set
does not only grow. -/
theorem c7_coverage_counterexample :
    Scalar.str covFileA.name ∈ snapshotCoverage c7StateOne ∧
    Scalar.str covFileA.name ∉ snapshotCoverage c7StateTwo := by
  decide



theorem concatDF_pair (e d : DF) :
    concatDF [e, d] = ⟨unionCols [e.cols, d.cols],
      e.assoc.map (reindexRow (unionCols [e.cols, d.cols])) ++
        (d.assoc.map (reindexRow (unionCols [e.cols, d.cols])) ++ [])⟩ := rfl

theorem mem_concatDF_pair_left (e d : DF) {r : Row} (hr : r ∈ e.assoc) :
    (unionCols [e.cols, d.cols]).zip (reindexRow (unionCols [e.cols, d.cols]) r) ∈
      (concatDF [e, d]).assoc := by
  rw [concatDF_pair]
  show _ ∈ (e.assoc.map (reindexRow (unionCols [e.cols, d.cols])) ++
      (d.assoc.map (reindexRow (unionCols [e.cols, d.cols])) ++ [])).map
      (fun vs => (unionCols [e.cols, d.cols]).zip vs)
  rw [List.map_append]
  refine List.mem_append_left _ ?_
  rw [List.map_map]
  refine List.mem_map.mpr ⟨r, hr, ?_⟩
  rfl

theorem snapshotCoverage_some (df : DF) :
    snapshotCoverage (some df) =
      if df.cols.contains "snapshot_file" then
        df.assoc.map (fun r => (rowLookup r "snapshot_file").getD .nan)
      else [] := rfl

/-- C7 (amended): across two successive ingest runs the `snapshot_file`
set of the curated artifact can only grow *provided* no two records of
the combined (union + normalized) dataset share a dedup key — dedup then
drops nothing; without that proviso, deduplicating an overlapping
re-export can remove a snapshot's last record and shrink the set. -/
theorem c7_coverage_conditional (digest : String → String)
    (toDt : String → Option Nat) (cfg : Config) (reg : Registry)
    (files : List SnapshotFile) (nowTs : String) (st : Option DF)
    (hu : ∀ r ∈ (ingestCombined cfg reg nowTs files st).assoc,
      ∀ y ∈ (ingestCombined cfg reg nowTs files st).assoc,
        generateDedupKey digest cfg.fallbackColumns y =
          generateDedupKey digest cfg.fallbackColumns r → y = r) :
    snapshotCoverage st ⊆ snapshotCoverage (runIngest digest toDt cfg reg files nowTs st) := by
  intro sv hsv
  cases st with
  | none => simp [snapshotCoverage, getProcessedSnapshots] at hsv
  | some e =>
      by_cases h1 : files.isEmpty
      · have hps : processSnapshots digest toDt cfg reg files (some e) nowTs = emptyDF := by
          unfold processSnapshots
          rw [if_pos h1]
        unfold runIngest
        rw [hps]
        exact hsv
      by_cases h2 : (newSnapshotFiles files (some e)).isEmpty
      · have hps : processSnapshots digest toDt cfg reg files (some e) nowTs = emptyDF := by
          unfold processSnapshots
          rw [if_neg h1, if_pos h2]
        unfold runIngest
        rw [hps]
        exact hsv
      by_cases h3 : (ingestNewDFs cfg reg nowTs files (some e)).isEmpty
      · have hps : processSnapshots digest toDt cfg reg files (some e) nowTs = emptyDF := by
          unfold processSnapshots
          rw [if_neg h1, if_neg h2, if_pos h3]
        unfold runIngest
        rw [hps]
        exact hsv
      have hps : processSnapshots digest toDt cfg reg files (some e) nowTs =
          dedupStep digest toDt cfg.fallbackColumns
            (ingestCombined cfg reg nowTs files (some e)) := by
        unfold processSnapshots
        rw [if_neg h1, if_neg h2, if_neg h3]
      unfold runIngest
      rw [hps]
      by_cases hemp : (dedupStep digest toDt cfg.fallbackColumns
          (ingestCombined cfg reg nowTs files (some e))).rows.isEmpty
      · rw [if_pos hemp]
        exact hsv
      rw [if_neg hemp]
      -- unpack the covered value: it comes from a record r of the artifact
      rw [snapshotCoverage_some] at hsv
      by_cases hcol : e.cols.contains "snapshot_file"
      swap
      · rw [if_neg hcol] at hsv
        exact absurd hsv (List.not_mem_nil sv)
      rw [if_pos hcol] at hsv
      rcases List.mem_map.mp hsv with ⟨r, hr, rfl⟩
      -- the combined frame and the image of r inside it
      have hcomb : ingestCombined cfg reg nowTs files (some e) =
          normalizeDF (concatDF [e, concatDF (ingestNewDFs cfg reg nowTs files (some e))]) := by
        unfold ingestCombined
        rfl
      set newC := concatDF (ingestNewDFs cfg reg nowTs files (some e)) with hnewC
      set cols2 := unionCols [e.cols, newC.cols] with hcols2
      have hsfcols2 : "snapshot_file" ∈ cols2 := by
        rw [hcols2]
        unfold unionCols
        exact List.mem_append_left _ (List.elem_iff.mp hcol)
      -- the reindexed image of r sits in the concatenated frame
      have hzr : cols2.zip (reindexRow cols2 r) ∈ (concatDF [e, newC]).assoc :=
        mem_concatDF_pair_left e newC hr
      -- and its normalized image sits in the combined frame
      have hrn : (cols2.zip (reindexRow cols2 r)).map (fun q =>
            (q.1, if isNumericCol q.1 then toNumericCoerce q.2 else q.2)) ∈
          (ingestCombined cfg reg nowTs files (some e)).assoc := by
        rw [hcomb, normalizeDF_assoc]
        exact List.mem_map.mpr ⟨_, hzr, rfl⟩
      -- its snapshot_file cell is r's
      have hval : rowLookup ((cols2.zip (reindexRow cols2 r)).map (fun q =>
            (q.1, if isNumericCol q.1 then toNumericCoerce q.2 else q.2)))
          "snapshot_file" = some ((rowLookup r "snapshot_file").getD .nan) := by
        rw [rowLookup_map_keep_fst]
        have hlz := rowLookup_reindex cols2 r "snapshot_file" hsfcols2
        rw [rowLookup_find?] at hlz
        rcases Option.map_eq_some'.mp hlz with ⟨q0, hq0, hq0v⟩
        have hq0p := List.find?_some hq0
        simp only [decide_eq_true_eq] at hq0p
        rw [hq0]
        have hnn : isNumericCol "snapshot_file" = false := by decide
        simp [hq0p, hnn, hq0v]
      -- it survives dedup
      have hsurv : (cols2.zip (reindexRow cols2 r)).map (fun q =>
            (q.1, if isNumericCol q.1 then toNumericCoerce q.2 else q.2)) ∈
          dedupRows digest toDt cfg.fallbackColumns
            (ingestCombined cfg reg nowTs files (some e)).assoc := by
        unfold dedupRows
        apply mem_dropDupKeepLast_of_unique
        · exact (sortBy_perm _ _).mem_iff.mpr hrn
        · intro y hy hky
          exact hu _ hrn y ((sortBy_perm _ _).mem_iff.mp hy) hky
      -- hence its snapshot_file value is still covered
      rw [snapshotCoverage_some]
      have hcols' : (dedupStep digest toDt cfg.fallbackColumns
          (ingestCombined cfg reg nowTs files (some e))).cols.contains "snapshot_file" := by
        show (ingestCombined cfg reg nowTs files (some e)).cols.contains "snapshot_file" = true
        rw [hcomb]
        show cols2.contains "snapshot_file" = true
        exact List.elem_iff.mpr hsfcols2
      rw [if_pos hcols', dedupStep_assoc]
      exact List.mem_map.mpr ⟨_, hsurv, by rw [hval]; rfl⟩

/-- Witness for `c7_coverage_conditional`: a successive run adding a
non-overlapping snapshot keeps snapshot A's name covered. -/
theorem c7_coverage_conditional_witness :
    Scalar.str covFileA.name ∈ snapshotCoverage
      (runIngest rawDigest parseTimestamp? cfgDemo [] [covFileA, covFileC] "now"
        c7StateOne) := by
  exact c7_coverage_conditional rawDigest parseTimestamp? cfgDemo []
    [covFileA, covFileC] "now" c7StateOne (by decide) (by decide)

theorem genKey_tier3 (digest : String → String) (fb : List String) (row : Row)
    (h1 : (primaryKeys.filterMap (colPair row)).length < 2)
    (h3 : fb.filterMap (colPair row) = [])
    (hne : tier3Pairs row ≠ []) :
    generateDedupKey digest fb row =
      digest (joinWith '|' (sortStrings (tier3Pairs row))) := by
  unfold generateDedupKey
  rw [if_neg (by omega), h3, if_neg (by simp)]
  unfold tier3Pairs at hne ⊢
  rw [if_pos hne]

theorem rowLookup_skip_mid (pre post : Row) (c : String) (x : String × Scalar)
    (hx : ¬ x.1 = c) :
    rowLookup (pre ++ x :: post) c = rowLookup (pre ++ post) c := by
  unfold rowLookup
  rw [List.find?_append, List.find?_append, List.find?_cons]
  simp [hx]

theorem rowLookup_mid_hit (pre post : Row) (v : Scalar)
    (h5pre : ∀ p ∈ pre, p.1 ≠ "snapshot_file") :
    rowLookup (pre ++ ("snapshot_file", v) :: post) "snapshot_file" = some v := by
  unfold rowLookup
  rw [List.find?_append]
  have hnone : pre.find? (fun p => p.1 = "snapshot_file") = none :=
    List.find?_eq_none.mpr (fun x hx => by simp [h5pre x hx])
  rw [hnone, List.find?_cons]
  simp

theorem colPair_mid_hit (pre post : Row) (v : Scalar) (hv : v.notna = true)
    (h5pre : ∀ p ∈ pre, p.1 ≠ "snapshot_file") :
    colPair (pre ++ ("snapshot_file", v) :: post) "snapshot_file" =
      some ("snapshot_file=" ++ v.render) := by
  unfold colPair
  rw [rowLookup_mid_hit pre post v h5pre]
  simp [hv]

theorem filterMap_colPair_congr (pre post : Row) (va vb : Scalar) (cs : List String)
    (hcs : ∀ c ∈ cs, c ≠ "snapshot_file") :
    cs.filterMap (colPair (pre ++ ("snapshot_file", va) :: post)) =
      cs.filterMap (colPair (pre ++ ("snapshot_file", vb) :: post)) := by
  apply List.filterMap_congr
  intro c hc
  unfold colPair
  rw [rowLookup_skip_mid pre post c _ (by simpa using (hcs c hc).symm),
    rowLookup_skip_mid pre post c _ (by simpa using (hcs c hc).symm)]

theorem tier3Pairs_mid (pre post : Row) (v : Scalar) (hv : v.notna = true)
    (h5 : ∀ p ∈ pre ++ post, p.1 ≠ "snapshot_file") :
    tier3Pairs (pre ++ ("snapshot_file", v) :: post) =
      ((pre.map Prod.fst).filter (fun c => ¬ isMetadataCol c)).filterMap
          (colPair (pre ++ ("snapshot_file", v) :: post)) ++
        ("snapshot_file=" ++ v.render) ::
          ((post.map Prod.fst).filter (fun c => ¬ isMetadataCol c)).filterMap
            (colPair (pre ++ ("snapshot_file", v) :: post)) := by
  unfold tier3Pairs
  rw [List.map_append, List.map_cons]
  simp only [List.filter_append, List.filter_cons]
  have hqual : (decide ¬ (isMetadataCol "snapshot_file") = true) = true := by decide
  simp only [hqual, if_true]
  rw [List.filterMap_append, List.filterMap_cons,
    colPair_mid_hit pre post v hv (fun p hp => h5 p (List.mem_append_left _ hp))]

/-- C10: tier 3 hashes every column whose name avoids the reserved
metadata beginnings, and `snapshot_file` avoids them all, so two records
agreeing on every other column but annotated with different
`snapshot_file` values hash different inputs: for a digest that does not
collide (the spec's collision-resistance contract for md5) their dedup
keys differ and the dedup step keeps both records.  Pipe-freeness of the
collected pairs rules out `|`-join ambiguity. -/
theorem c10_tier3_snapshot_file (digest : String → String)
    (toDt : String → Option Nat) (fb : List String) (pre post : Row) (A B : String)
    (hinj : ∀ a b, digest a = digest b → a = b)
    (hAB : A ≠ B)
    (h1 : (primaryKeys.filterMap
      (colPair (pre ++ ("snapshot_file", Scalar.str A) :: post))).length < 2)
    (h2 : (primaryKeys.filterMap
      (colPair (pre ++ ("snapshot_file", Scalar.str B) :: post))).length < 2)
    (h3 : fb.filterMap (colPair (pre ++ ("snapshot_file", Scalar.str A) :: post)) = [])
    (h4 : fb.filterMap (colPair (pre ++ ("snapshot_file", Scalar.str B) :: post)) = [])
    (h5 : ∀ p ∈ pre ++ post, p.1 ≠ "snapshot_file")
    (h6 : ∀ s ∈ tier3Pairs (pre ++ ("snapshot_file", Scalar.str A) :: post), '|' ∉ s.data)
    (h7 : ∀ s ∈ tier3Pairs (pre ++ ("snapshot_file", Scalar.str B) :: post), '|' ∉ s.data) :
    generateDedupKey digest fb (pre ++ ("snapshot_file", Scalar.str A) :: post) ≠
      generateDedupKey digest fb (pre ++ ("snapshot_file", Scalar.str B) :: post) ∧
    (pre ++ ("snapshot_file", Scalar.str A) :: post) ∈
      dedupRows digest toDt fb
        [pre ++ ("snapshot_file", Scalar.str A) :: post,
         pre ++ ("snapshot_file", Scalar.str B) :: post] ∧
    (pre ++ ("snapshot_file", Scalar.str B) :: post) ∈
      dedupRows digest toDt fb
        [pre ++ ("snapshot_file", Scalar.str A) :: post,
         pre ++ ("snapshot_file", Scalar.str B) :: post] := by
  have hd1 := tier3Pairs_mid pre post (.str A) rfl h5
  have hd2 := tier3Pairs_mid pre post (.str B) rfl h5
  have hcsPre : ∀ c ∈ (pre.map Prod.fst).filter (fun c => ¬ isMetadataCol c),
      c ≠ "snapshot_file" := by
    intro c hc
    rcases List.mem_map.mp (List.mem_filter.mp hc).1 with ⟨p, hp, rfl⟩
    exact h5 p (List.mem_append_left _ hp)
  have hcsPost : ∀ c ∈ (post.map Prod.fst).filter (fun c => ¬ isMetadataCol c),
      c ≠ "snapshot_file" := by
    intro c hc
    rcases List.mem_map.mp (List.mem_filter.mp hc).1 with ⟨p, hp, rfl⟩
    exact h5 p (List.mem_append_right _ hp)
  have hF1 := filterMap_colPair_congr pre post (.str A) (.str B) _ hcsPre
  have hF2 := filterMap_colPair_congr pre post (.str A) (.str B) _ hcsPost
  have hne1 : tier3Pairs (pre ++ ("snapshot_file", Scalar.str A) :: post) ≠ [] := by
    rw [hd1]
    simp
  have hne2 : tier3Pairs (pre ++ ("snapshot_file", Scalar.str B) :: post) ≠ [] := by
    rw [hd2]
    simp
  have hk1 := genKey_tier3 digest fb _ h1 h3 hne1
  have hk2 := genKey_tier3 digest fb _ h2 h4 hne2
  have hsASB : ("snapshot_file=" ++ (Scalar.str A).render) ≠
      ("snapshot_file=" ++ (Scalar.str B).render) := by
    intro h
    have hdata : "snapshot_file=".data ++ A.data = "snapshot_file=".data ++ B.data := by
      simpa [String.data_append] using congrArg String.data h
    exact hAB (String.ext (List.append_cancel_left hdata))
  have hsne : sortStrings (tier3Pairs (pre ++ ("snapshot_file", Scalar.str A) :: post)) ≠
      sortStrings (tier3Pairs (pre ++ ("snapshot_file", Scalar.str B) :: post)) := by
    intro heq
    have hc1 : (sortStrings (tier3Pairs (pre ++ ("snapshot_file", Scalar.str A) :: post))).count
        ("snapshot_file=" ++ (Scalar.str A).render) =
        (tier3Pairs (pre ++ ("snapshot_file", Scalar.str A) :: post)).count
          ("snapshot_file=" ++ (Scalar.str A).render) :=
      (sortBy_perm strLe _).count_eq _
    have hc2 : (sortStrings (tier3Pairs (pre ++ ("snapshot_file", Scalar.str B) :: post))).count
        ("snapshot_file=" ++ (Scalar.str A).render) =
        (tier3Pairs (pre ++ ("snapshot_file", Scalar.str B) :: post)).count
          ("snapshot_file=" ++ (Scalar.str A).render) :=
      (sortBy_perm strLe _).count_eq _
    rw [heq, hc2] at hc1
    rw [hd1, hd2, ← hF1, ← hF2] at hc1
    rw [List.count_append, List.count_append, List.count_cons_self,
      List.count_cons_of_ne hsASB] at hc1
    omega
  have hjne : joinWith '|'
      (sortStrings (tier3Pairs (pre ++ ("snapshot_file", Scalar.str A) :: post))) ≠
      joinWith '|'
        (sortStrings (tier3Pairs (pre ++ ("snapshot_file", Scalar.str B) :: post))) := by
    intro hjoin
    apply hsne
    apply joinWith_pipe_inj _ _
      (fun h => hne1 (List.length_eq_zero.mp
        (((sortBy_perm strLe _).length_eq).symm.trans (by rw [h]; rfl))))
      (fun h => hne2 (List.length_eq_zero.mp
        (((sortBy_perm strLe _).length_eq).symm.trans (by rw [h]; rfl))))
      (fun s hs => h6 s ((sortBy_perm strLe _).mem_iff.mp hs))
      (fun s hs => h7 s ((sortBy_perm strLe _).mem_iff.mp hs))
      hjoin
  have hkne : generateDedupKey digest fb (pre ++ ("snapshot_file", Scalar.str A) :: post) ≠
      generateDedupKey digest fb (pre ++ ("snapshot_file", Scalar.str B) :: post) := by
    rw [hk1, hk2]
    intro h
    exact hjne (hinj _ _ h)
  refine ⟨hkne, ?_, ?_⟩
  · unfold dedupRows
    apply mem_dropDupKeepLast_of_unique
    · exact (sortBy_perm _ _).mem_iff.mpr (by simp)
    · intro y hy hky
      rcases List.mem_cons.mp ((sortBy_perm _ _).mem_iff.mp hy) with h | h
      · exact h
      · have h2 : y = pre ++ ("snapshot_file", Scalar.str B) :: post := by simpa using h
        subst h2
        exact absurd hky.symm hkne
  · unfold dedupRows
    apply mem_dropDupKeepLast_of_unique
    · exact (sortBy_perm _ _).mem_iff.mpr (by simp)
    · intro y hy hky
      rcases List.mem_cons.mp ((sortBy_perm _ _).mem_iff.mp hy) with h | h
      · subst h
        exact absurd hky hkne
      · simpa using h

/-- Witness for `c10_tier3_snapshot_file`: two one-domain-column records
differing only in `snapshot_file` get distinct tier-3 keys and both
survive dedup. -/
theorem c10_tier3_snapshot_file_witness :
    generateDedupKey (fun s => s) []
        ([("x", Scalar.str "1")] ++ ("snapshot_file", Scalar.str "a") :: []) ≠
      generateDedupKey (fun s => s) []
        ([("x", Scalar.str "1")] ++ ("snapshot_file", Scalar.str "b") :: []) ∧
    ([("x", Scalar.str "1")] ++ ("snapshot_file", Scalar.str "a") :: []) ∈
      dedupRows (fun s => s) parseTimestamp? []
        [[("x", Scalar.str "1")] ++ ("snapshot_file", Scalar.str "a") :: [],
         [("x", Scalar.str "1")] ++ ("snapshot_file", Scalar.str "b") :: []] ∧
    ([("x", Scalar.str "1")] ++ ("snapshot_file", Scalar.str "b") :: []) ∈
      dedupRows (fun s => s) parseTimestamp? []
        [[("x", Scalar.str "1")] ++ ("snapshot_file", Scalar.str "a") :: [],
         [("x", Scalar.str "1")] ++ ("snapshot_file", Scalar.str "b") :: []] := by
  exact c10_tier3_snapshot_file (fun s => s) parseTimestamp? []
    [("x", Scalar.str "1")] [] "a" "b" (fun a b hab => hab) (by decide)
    (by decide) (by decide) (by decide) (by decide) (by decide) (by decide) (by decide)
